import Mathlib

/-! Client buffer exchange: the two strategies (`ExchangeSemantics`,
`NewBufferSemantics`), the stream that owns one of them (`BufferStream`), and
the FD channel (`send_fds`).

A shallow embedding of `src/src/client/buffer_stream.cpp` and of
`src/src/common/fd/fd_socket_transmission.cpp`.  Every method of a
C++ object becomes a function from the object's state to the list of externally
visible effects the call performs, in program order, the value it returns (or
the exception it throws), and the state it leaves behind: an `Outcome` for the
Ping-Pong strategy, whose calls always finish, a `Progress` where a call may be
left waiting for the pool manager.

Conventions of the embedding:
* a `std::function<void()>` that holds a target is a `Callback` token, the empty
  `std::function` is `none`; the `done` argument of `submit` is a callable;
* `std::queue` is a list whose head is `front()`; `push` appends at the end;
* identifiers are natural numbers, taken to fit the 32-bit wire fields; a scale,
  a `float` the code only passes on, is kept as a number;
* a call runs to completion before the next one starts (a sequential history);
  the window in which `submit` drops its lock is kept visible by splitting it in
  `submit_request` and `submit_complete`;
* a `withdraw().get()` on an exhausted pool leaves the call `blocked`, in the
  state it had reached.
-/

namespace mir
namespace client

/-! ## Data model -/

/-- The `geom::Size` value: a width and a height. -/
structure Size where
  width : Int
  height : Int
deriving DecidableEq, Repr

/-- The `MirPixelFormat` enumeration, kept as its numeric tag. -/
abbrev MirPixelFormat := Nat

/-- The wire record `mir::protobuf::Buffer`, with the fields `buffer_stream.cpp`
consumes.  Optional fields whose presence the code tests (`has_width`,
`has_height`, `has_error`) are options. -/
structure Buffer where
  buffer_id : Nat
  fd : List Int
  data : List Int
  opt_width : Option Int
  opt_height : Option Int
  stride : Int
  flags : Nat
  error : Option String
deriving DecidableEq, Repr

namespace Buffer

/-- Accessor `has_error()`. -/
def has_error (b : Buffer) : Bool := b.error.isSome

/-- Accessor `has_width()`. -/
def has_width (b : Buffer) : Bool := b.opt_width.isSome

/-- Accessor `has_height()`. -/
def has_height (b : Buffer) : Bool := b.opt_height.isSome

/-- Accessor `width()`: the field, or the protobuf default when absent. -/
def width (b : Buffer) : Int := b.opt_width.getD 0

/-- Accessor `height()`: the field, or the protobuf default when absent. -/
def height (b : Buffer) : Int := b.opt_height.getD 0

end Buffer

/-- The C structure `MirBufferPackage` that `populate_buffer_package` fills. -/
structure MirBufferPackage where
  data_items : Nat
  data : List Int
  fd_items : Nat
  fd : List Int
  stride : Int
  flags : Nat
  width : Int
  height : Int
deriving DecidableEq, Repr

/-- Function `populate_buffer_package` (buffer_stream.cpp:77-110): copy the wire
record into a package, or zero every count and dimension when the record
carries an error. -/
def populate_buffer_package (protobuf_buffer : Buffer) : MirBufferPackage :=
  if !protobuf_buffer.has_error then
    { data_items := protobuf_buffer.data.length
      data := protobuf_buffer.data
      fd_items := protobuf_buffer.fd.length
      fd := protobuf_buffer.fd
      stride := protobuf_buffer.stride
      flags := protobuf_buffer.flags
      width := protobuf_buffer.width
      height := protobuf_buffer.height }
  else
    { data_items := 0
      data := []
      fd_items := 0
      fd := []
      stride := 0
      flags := 0
      width := 0
      height := 0 }

/-- The buffer a depository has adopted: what `deposit_package` was given. -/
structure ClientBuffer where
  package : MirBufferPackage
  id : Nat
  size : Size
  pf : MirPixelFormat
deriving DecidableEq, Repr

/-- Modelled from the spec: the class `ClientBufferDepository` behind the member
`wrapped` is not part of the sources at hand.  The spec gives the Ping-Pong
state "a bounded pool (size configurable ...), the id of the buffer currently
visible to the renderer": the depository holds the adopted current buffer (none
before the first deposit) and its retained-buffer budget. -/
structure ClientBufferDepository where
  current : Option ClientBuffer
  max_buffers : Nat
deriving DecidableEq, Repr

namespace ClientBufferDepository

/-- Modelled from the spec: construction `wrapped{factory, max_buffers}` of the
missing class, a depository that has adopted nothing yet. -/
def create (max_buffers : Nat) : ClientBufferDepository :=
  { current := none, max_buffers := max_buffers }

/-- Modelled from the spec: `deposit_package` of the missing class "adopts
`buffer` as current". -/
def deposit_package (d : ClientBufferDepository) (package : MirBufferPackage)
    (id : Nat) (size : Size) (pf : MirPixelFormat) : ClientBufferDepository :=
  { d with current := some { package := package, id := id, size := size, pf := pf } }

/-- Modelled from the spec: `current_buffer` of the missing class, the adopted
current buffer. -/
def current_buffer (d : ClientBufferDepository) : Option ClientBuffer := d.current

/-- Modelled from the spec: `current_buffer_id` of the missing class, "the id of
the buffer currently visible to the renderer" (0 while nothing is adopted). -/
def current_buffer_id (d : ClientBufferDepository) : Nat :=
  match d.current with
  | some b => b.id
  | none => 0

/-- Modelled from the spec: `set_max_buffers` of the missing class "adjusts the
pool's retained-buffer budget". -/
def set_max_buffers (d : ClientBufferDepository) (sz : Nat) : ClientBufferDepository :=
  { d with max_buffers := sz }

end ClientBufferDepository

/-- Modelled from the spec: the class `MirWaitHandle` is not part of the sources
at hand.  The spec gives it the states "idle → expecting → resolved → (idle)". -/
inductive MirWaitHandle where
  | idle
  | expecting
  | resolved
deriving DecidableEq, Repr

namespace MirWaitHandle

/-- Modelled from the spec: `expect_result()` of the missing class "arms the
handle for exactly one outcome". -/
def expect_result (_ : MirWaitHandle) : MirWaitHandle := expecting

/-- Modelled from the spec: `result_received()` of the missing class "moves
expecting→resolved"; a handle "may be force-resolved". -/
def result_received (_ : MirWaitHandle) : MirWaitHandle := resolved

/-- Modelled from the spec: `is_pending()` of the missing class, true of a
handle that is armed and not yet resolved. -/
def is_pending (h : MirWaitHandle) : Bool :=
  match h with
  | expecting => true
  | _ => false

end MirWaitHandle

/-- A callable held by a `std::function<void()>`, identified by a token. -/
structure Callback where
  token : Nat
deriving DecidableEq, Repr

/-- The request message `mp::BufferRequest` built by `submit`. -/
structure BufferRequest where
  id : Int
  buffer_id : Nat
deriving DecidableEq, Repr

/-- The wait handles of a strategy (`next_buffer`, `scale`) and of a stream
(`screencast`, `interval`). -/
inductive HandleName where
  | next_buffer
  | scale
  | screencast
  | interval
deriving DecidableEq, Repr

/-- The request message `mp::StreamConfiguration`: the stream id and the optional
settings `buffer_stream.cpp` fills in.  A scale, a C++ `float` the code only
passes on, is kept as a number. -/
structure StreamConfiguration where
  id : Int
  scale : Option Int
  swapinterval : Option Int
deriving DecidableEq, Repr

/-- What a call does to the world outside the strategy's own fields. -/
inductive Effect where
  | submit_buffer (request : BufferRequest)
  | deposit_package (buffer_id : Nat)
  | callback_invoked (cb : Callback)
  | expect_result (h : HandleName)
  | result_received (h : HandleName)
  | configure_buffer_stream (configuration : StreamConfiguration)
  | screencast_buffer (screencast_id : Int)
  | vault_withdraw (buffer_id : Nat)
  | vault_deposit (buffer_id : Nat)
  | wire_transfer_outbound (buffer_id : Nat)
  | wire_transfer_inbound (buffer_id : Nat)
  | vault_set_size (size : Size)
  | vault_set_scale (scale : Int)
  | end_frame (buffer_id : Nat)
  | begin_frame (buffer_id : Nat)
  | secure_for_cpu_write (buffer_id : Nat)
  | log_error (what : String)
  | close_fd (fd : Int)
deriving DecidableEq, Repr

/-- The exceptions `buffer_stream.cpp` throws. -/
inductive Exception where
  | runtime_error (what : String)
  | logic_error (what : String)
deriving DecidableEq, Repr

/-- One finished call: its effects in program order, what it returned or threw,
and the state afterwards. -/
structure Outcome (σ : Type) (α : Type) where
  effects : List Effect
  result : Except Exception α
  state : σ

/-- How a call that may wait on the pool manager stands: it returned, it threw,
it is waiting inside `withdraw().get()` for a buffer, or it dereferenced a null
buffer pointer. -/
inductive Completion (α : Type) where
  | returned (value : α)
  | thrown (e : Exception)
  | blocked
  | undefined
deriving DecidableEq, Repr

/-- A call followed as far as it gets: the effects so far, in program order, how
it stands, and the state it has reached. -/
structure Progress (σ : Type) (α : Type) where
  effects : List Effect
  result : Completion α
  state : σ

namespace Progress

/-- A call that returns at once, with no effect. -/
def done (value : α) (s : σ) : Progress σ α :=
  { effects := [], result := Completion.returned value, state := s }

/-- Sequencing: the second part runs only once the first has returned. -/
def andThen (p : Progress σ α) (f : α → σ → Progress σ β) : Progress σ β :=
  match p.result with
  | Completion.returned value =>
    { effects := p.effects ++ (f value p.state).effects
      result := (f value p.state).result
      state := (f value p.state).state }
  | Completion.thrown e => { effects := p.effects, result := Completion.thrown e, state := p.state }
  | Completion.blocked => { effects := p.effects, result := Completion.blocked, state := p.state }
  | Completion.undefined =>
    { effects := p.effects, result := Completion.undefined, state := p.state }

end Progress

/-- A finished call seen as progress: `ok` is a return, `error` a throw. -/
def Outcome.progress (o : Outcome σ α) : Progress σ α :=
  { effects := o.effects
    result := match o.result with
      | Except.ok value => Completion.returned value
      | Except.error e => Completion.thrown e
    state := o.state }

/-- The fields of `struct ExchangeSemantics` (buffer_stream.cpp:235-244); the
mutex, the server reference and the reusable `protobuf_void` carry no state. -/
structure ExchangeSemantics where
  wrapped : ClientBufferDepository
  on_incoming_buffer : Option Callback
  incoming_buffers : List Buffer
  next_buffer_wait_handle : MirWaitHandle
  server_connection_lost : Bool
  scale_wait_handle : MirWaitHandle
  scale_ : Option Int
deriving DecidableEq, Repr

namespace ExchangeSemantics

/-- Constructor `ExchangeSemantics::ExchangeSemantics` (buffer_stream.cpp:115-125):
the depository is created and the first buffer deposited in it; every other
member takes its default. -/
def create (max_buffers : Nat) (first_buffer : Buffer) (first_size : Size)
    (first_pf : MirPixelFormat) : ExchangeSemantics :=
  let buffer_package := populate_buffer_package first_buffer
  { wrapped := (ClientBufferDepository.create max_buffers).deposit_package
      buffer_package first_buffer.buffer_id first_size first_pf
    on_incoming_buffer := none
    incoming_buffers := []
    next_buffer_wait_handle := MirWaitHandle.idle
    server_connection_lost := false
    scale_wait_handle := MirWaitHandle.idle
    scale_ := none }

/-- Method `ExchangeSemantics::deposit` (buffer_stream.cpp:127-146). -/
def deposit (buffer : Buffer) (size : Size) (pf : MirPixelFormat)
    (s : ExchangeSemantics) : Outcome ExchangeSemantics Unit :=
  match s.on_incoming_buffer with
  | some _ =>
    let buffer_package := populate_buffer_package buffer
    let s1 := { s with
      wrapped := s.wrapped.deposit_package buffer_package buffer.buffer_id size pf }
    match s1.on_incoming_buffer with
    | some cb =>
      { effects := [Effect.deposit_package buffer.buffer_id,
                    Effect.callback_invoked cb,
                    Effect.result_received HandleName.next_buffer]
        result := Except.ok ()
        state := { s1 with
          next_buffer_wait_handle := s1.next_buffer_wait_handle.result_received
          on_incoming_buffer := none } }
    | none =>
      { effects := [Effect.deposit_package buffer.buffer_id]
        result := Except.ok ()
        state := s1 }
  | none =>
    { effects := []
      result := Except.ok ()
      state := { s with incoming_buffers := s.incoming_buffers ++ [buffer] } }

/-- Method `ExchangeSemantics::set_buffer_cache_size` (buffer_stream.cpp:148-152). -/
def set_buffer_cache_size (sz : Nat) (s : ExchangeSemantics) :
    Outcome ExchangeSemantics Unit :=
  { effects := []
    result := Except.ok ()
    state := { s with wrapped := s.wrapped.set_max_buffers sz } }

/-- Method `ExchangeSemantics::current_buffer` (buffer_stream.cpp:153-157). -/
def current_buffer (s : ExchangeSemantics) :
    Outcome ExchangeSemantics (Option ClientBuffer) :=
  { effects := []
    result := Except.ok s.wrapped.current_buffer
    state := s }

/-- Method `ExchangeSemantics::current_buffer_id` (buffer_stream.cpp:158-164). -/
def current_buffer_id (s : ExchangeSemantics) : Outcome ExchangeSemantics Nat :=
  match s.incoming_buffers with
  | front :: _ =>
    { effects := []
      result := Except.ok front.buffer_id
      state := s }
  | [] =>
    { effects := []
      result := Except.ok s.wrapped.current_buffer_id
      state := s }

/-- First half of `ExchangeSemantics::submit` (buffer_stream.cpp:168-178): under
the lock, refuse when disconnected, else build the request from the adopted
current buffer; then, lock dropped, issue the `submit_buffer` call. -/
def submit_request (stream_id : Int) (s : ExchangeSemantics) :
    Outcome ExchangeSemantics Unit :=
  if s.server_connection_lost then
    { effects := []
      result := Except.error (Exception.runtime_error "disconnected: no new buffers")
      state := s }
  else
    let request : BufferRequest :=
      { id := stream_id, buffer_id := s.wrapped.current_buffer_id }
    { effects := [Effect.submit_buffer request]
      result := Except.ok ()
      state := s }

/-- Second half of `ExchangeSemantics::submit` (buffer_stream.cpp:180-196): lock
taken again, refuse when disconnected; with an empty arrival queue arm the wait
handle and store `done`, else adopt the front of the queue, pop it and call
`done`.  The value returned is the address of `next_buffer_wait_handle`. -/
def submit_complete (done : Callback) (sz : Size) (pf : MirPixelFormat)
    (s : ExchangeSemantics) : Outcome ExchangeSemantics HandleName :=
  if s.server_connection_lost then
    { effects := []
      result := Except.error (Exception.runtime_error "disconnected: no new buffers")
      state := s }
  else
    match s.incoming_buffers with
    | [] =>
      { effects := [Effect.expect_result HandleName.next_buffer]
        result := Except.ok HandleName.next_buffer
        state := { s with
          next_buffer_wait_handle := s.next_buffer_wait_handle.expect_result
          on_incoming_buffer := some done } }
    | front :: rest =>
      let buffer_package := populate_buffer_package front
      { effects := [Effect.deposit_package front.buffer_id, Effect.callback_invoked done]
        result := Except.ok HandleName.next_buffer
        state := { s with
          wrapped := s.wrapped.deposit_package buffer_package front.buffer_id sz pf
          incoming_buffers := rest } }

/-- Method `ExchangeSemantics::submit` (buffer_stream.cpp:166-197): the two
halves in sequence; an exception in the first half ends the call. -/
def submit (done : Callback) (sz : Size) (pf : MirPixelFormat) (stream_id : Int)
    (s : ExchangeSemantics) : Outcome ExchangeSemantics HandleName :=
  let first := submit_request stream_id s
  match first.result with
  | Except.error e =>
    { effects := first.effects
      result := Except.error e
      state := first.state }
  | Except.ok _ =>
    let second := submit_complete done sz pf first.state
    { effects := first.effects ++ second.effects
      result := second.result
      state := second.state }

/-- Method `ExchangeSemantics::lost_connection` (buffer_stream.cpp:199-210). -/
def lost_connection (s : ExchangeSemantics) : Outcome ExchangeSemantics Unit :=
  let s1 := { s with server_connection_lost := true }
  let fired : List Effect × ExchangeSemantics :=
    match s1.on_incoming_buffer with
    | some cb => ([Effect.callback_invoked cb], { s1 with on_incoming_buffer := none })
    | none => ([], s1)
  let s2 := fired.2
  if s2.next_buffer_wait_handle.is_pending then
    { effects := fired.1 ++ [Effect.result_received HandleName.next_buffer]
      result := Except.ok ()
      state := { s2 with
        next_buffer_wait_handle := s2.next_buffer_wait_handle.result_received } }
  else
    { effects := fired.1
      result := Except.ok ()
      state := s2 }

/-- Method `ExchangeSemantics::set_size` (buffer_stream.cpp:212-214): empty. -/
def set_size (_ : Size) (s : ExchangeSemantics) : Outcome ExchangeSemantics Unit :=
  { effects := [], result := Except.ok (), state := s }

/-- Method `ExchangeSemantics::on_scale_set` (buffer_stream.cpp:216-221), the
completion of the `configure_buffer_stream` call made by `set_scale`. -/
def on_scale_set (scale : Int) (s : ExchangeSemantics) : Outcome ExchangeSemantics Unit :=
  { effects := [Effect.result_received HandleName.scale]
    result := Except.ok ()
    state := { s with
      scale_ := some scale
      scale_wait_handle := s.scale_wait_handle.result_received } }

/-- Method `ExchangeSemantics::set_scale` (buffer_stream.cpp:223-233): arm the
scale handle and send the configuration; `on_scale_set` runs when the server
answers. -/
def set_scale (scale : Int) (stream_id : Int) (s : ExchangeSemantics) :
    Outcome ExchangeSemantics HandleName :=
  let configuration : StreamConfiguration :=
    { id := stream_id, scale := some scale, swapinterval := none }
  { effects := [Effect.expect_result HandleName.scale,
                Effect.configure_buffer_stream configuration]
    result := Except.ok HandleName.scale
    state := { s with scale_wait_handle := s.scale_wait_handle.expect_result } }

end ExchangeSemantics

/-! ## The Vault strategy (`NewBufferSemantics`) -/

/-- The pair `mcl::BufferInfo`: a buffer pointer, null when `none`, and an id. -/
structure BufferInfo where
  buffer : Option ClientBuffer
  id : Nat
deriving DecidableEq, Repr

/-- Modelled from the spec: the pool manager `BufferVault` behind the member
`vault` is not part of the sources at hand.  The spec gives it the interface
`withdraw`, `deposit`, `wire_transfer_outbound`, `wire_transfer_inbound`,
`set_size`, `set_scale`: a pool of available buffers, the ids marked as posted
for display, the ids handed to the server and not yet returned, and the size
and scale last set. -/
structure BufferVault where
  available : List ClientBuffer
  posted : List Nat
  outbound : List Nat
  size : Size
  format : MirPixelFormat
  scale : Option Int
deriving DecidableEq, Repr

namespace BufferVault

/-- Modelled from the spec: construction of the missing pool manager; nothing is
available until the server has delivered a buffer. -/
def create (size : Size) (format : MirPixelFormat) : BufferVault :=
  { available := [], posted := [], outbound := [], size := size, format := format,
    scale := none }

/-- Modelled from the spec: `withdraw()` of the missing pool manager hands out an
available buffer; "the next withdraw will naturally block if the pool is
exhausted", which is the answer `none`. -/
def withdraw (v : BufferVault) : Option (BufferInfo × BufferVault) :=
  match v.available with
  | [] => none
  | b :: rest => some ({ buffer := some b, id := b.id }, { v with available := rest })

/-- Modelled from the spec: `deposit(buffer)` of the missing pool manager, "mark
it deposited (posted for display)". -/
def deposit (v : BufferVault) (b : ClientBuffer) : BufferVault :=
  { v with posted := v.posted ++ [b.id] }

/-- Modelled from the spec: `wire_transfer_outbound(buffer)` of the missing pool
manager, "hand it outward over the wire". -/
def wire_transfer_outbound (v : BufferVault) (b : ClientBuffer) : BufferVault :=
  { v with outbound := v.outbound ++ [b.id] }

/-- Modelled from the spec: `wire_transfer_inbound(buffer)` of the missing pool
manager, "returning a previously-submitted buffer to the available pool once
the server is done with it". -/
def wire_transfer_inbound (v : BufferVault) (b : Buffer) : BufferVault :=
  { v with
    available := v.available ++
      [{ package := populate_buffer_package b, id := b.buffer_id,
         size := { width := b.width, height := b.height }, pf := v.format }]
    outbound := v.outbound.erase b.buffer_id }

/-- Modelled from the spec: `set_size(size)` of the missing pool manager. -/
def set_size (v : BufferVault) (size : Size) : BufferVault := { v with size := size }

/-- Modelled from the spec: `set_scale(scale)` of the missing pool manager. -/
def set_scale (v : BufferVault) (scale : Int) : BufferVault := { v with scale := some scale }

end BufferVault

/-- The fields of `struct NewBufferSemantics` (buffer_stream.cpp:373-377). -/
structure NewBufferSemantics where
  vault : BufferVault
  current : BufferInfo
  next_buffer_wait_handle : MirWaitHandle
  scale_wait_handle : MirWaitHandle
deriving DecidableEq, Repr

namespace NewBufferSemantics

/-- Constructor `NewBufferSemantics::NewBufferSemantics` (buffer_stream.cpp:295-302);
`current` starts as `{nullptr, 0}`. -/
def create (size : Size) (format : MirPixelFormat) : NewBufferSemantics :=
  { vault := BufferVault.create size format
    current := { buffer := none, id := 0 }
    next_buffer_wait_handle := MirWaitHandle.idle
    scale_wait_handle := MirWaitHandle.idle }

/-- Method `NewBufferSemantics::deposit` (buffer_stream.cpp:304-307). -/
def deposit (buffer : Buffer) (_ : Size) (_ : MirPixelFormat) (s : NewBufferSemantics) :
    Progress NewBufferSemantics Unit :=
  { effects := [Effect.wire_transfer_inbound buffer.buffer_id]
    result := Completion.returned ()
    state := { s with vault := s.vault.wire_transfer_inbound buffer } }

/-- Method `NewBufferSemantics::advance_current_buffer` (buffer_stream.cpp:309-315):
`vault.withdraw().get()` waits while the pool has nothing to hand out. -/
def advance_current_buffer (s : NewBufferSemantics) : Progress NewBufferSemantics Unit :=
  match s.vault.withdraw with
  | none => { effects := [], result := Completion.blocked, state := s }
  | some (buffer, vault) =>
    { effects := [Effect.vault_withdraw buffer.id]
      result := Completion.returned ()
      state := { s with vault := vault, current := buffer } }

/-- The guarded call `if (!current.buffer) advance_current_buffer(lk);` that opens
`current_buffer`, `current_buffer_id` and `submit`. -/
def ensure_current (s : NewBufferSemantics) : Progress NewBufferSemantics Unit :=
  if s.current.buffer.isNone then advance_current_buffer s else Progress.done () s

/-- Method `NewBufferSemantics::current_buffer` (buffer_stream.cpp:317-323). -/
def current_buffer (s : NewBufferSemantics) :
    Progress NewBufferSemantics (Option ClientBuffer) :=
  (ensure_current s).andThen fun _ s1 => Progress.done s1.current.buffer s1

/-- Method `NewBufferSemantics::current_buffer_id` (buffer_stream.cpp:325-331). -/
def current_buffer_id (s : NewBufferSemantics) : Progress NewBufferSemantics Nat :=
  (ensure_current s).andThen fun _ s1 => Progress.done s1.current.id s1

/-- Middle of `NewBufferSemantics::submit` (buffer_stream.cpp:340-344): post the
current buffer in the pool, arm the handle, send the buffer out, resolve the
handle. -/
def submit_post (s : NewBufferSemantics) : Progress NewBufferSemantics Unit :=
  match s.current.buffer with
  | none => { effects := [], result := Completion.undefined, state := s }
  | some c =>
    { effects := [Effect.vault_deposit c.id,
                  Effect.expect_result HandleName.next_buffer,
                  Effect.wire_transfer_outbound c.id,
                  Effect.result_received HandleName.next_buffer]
      result := Completion.returned ()
      state := { s with
        vault := (s.vault.deposit c).wire_transfer_outbound c
        next_buffer_wait_handle :=
          s.next_buffer_wait_handle.expect_result.result_received } }

/-- End of `NewBufferSemantics::submit` (buffer_stream.cpp:346-349): withdraw the
next current buffer, call `done`, return the address of
`next_buffer_wait_handle`. -/
def submit_finish (done : Callback) (s : NewBufferSemantics) :
    Progress NewBufferSemantics HandleName :=
  (advance_current_buffer s).andThen fun _ s1 =>
    { effects := [Effect.callback_invoked done]
      result := Completion.returned HandleName.next_buffer
      state := s1 }

/-- Method `NewBufferSemantics::submit` (buffer_stream.cpp:333-350). -/
def submit (done : Callback) (_ : Size) (_ : MirPixelFormat) (_ : Int)
    (s : NewBufferSemantics) : Progress NewBufferSemantics HandleName :=
  (ensure_current s).andThen fun _ s1 =>
    (submit_post s1).andThen fun _ s2 => submit_finish done s2

/-- Method `NewBufferSemantics::set_size` (buffer_stream.cpp:352-355). -/
def set_size (size : Size) (s : NewBufferSemantics) : Progress NewBufferSemantics Unit :=
  { effects := [Effect.vault_set_size size]
    result := Completion.returned ()
    state := { s with vault := s.vault.set_size size } }

/-- Method `NewBufferSemantics::lost_connection` (buffer_stream.cpp:357-359): empty. -/
def lost_connection (s : NewBufferSemantics) : Progress NewBufferSemantics Unit :=
  Progress.done () s

/-- Method `NewBufferSemantics::set_buffer_cache_size` (buffer_stream.cpp:361-363):
empty. -/
def set_buffer_cache_size (_ : Nat) (s : NewBufferSemantics) :
    Progress NewBufferSemantics Unit :=
  Progress.done () s

/-- Method `NewBufferSemantics::set_scale` (buffer_stream.cpp:365-371): the scale
handle is armed and resolved at once, then the scale goes to the pool manager;
the stream id is not used. -/
def set_scale (scale : Int) (_ : Int) (s : NewBufferSemantics) :
    Progress NewBufferSemantics HandleName :=
  { effects := [Effect.expect_result HandleName.scale,
                Effect.result_received HandleName.scale,
                Effect.vault_set_scale scale]
    result := Completion.returned HandleName.scale
    state := { s with
      scale_wait_handle := s.scale_wait_handle.expect_result.result_received
      vault := s.vault.set_scale scale } }

end NewBufferSemantics

/-! ## Histories of calls -/

/-- One call on a Ping-Pong strategy, with its arguments. -/
inductive Call where
  | submit (done : Callback) (sz : Size) (pf : MirPixelFormat) (stream_id : Int)
  | deposit (buffer : Buffer) (size : Size) (pf : MirPixelFormat)
  | lost_connection
  | set_buffer_cache_size (sz : Nat)
deriving DecidableEq, Repr

/-- The effects and the state after one call; a call that throws leaves the
object in the state the exception found it in. -/
def Call.perform (c : Call) (s : ExchangeSemantics) : List Effect × ExchangeSemantics :=
  match c with
  | Call.submit done sz pf stream_id =>
    ((ExchangeSemantics.submit done sz pf stream_id s).effects,
     (ExchangeSemantics.submit done sz pf stream_id s).state)
  | Call.deposit buffer size pf =>
    ((ExchangeSemantics.deposit buffer size pf s).effects,
     (ExchangeSemantics.deposit buffer size pf s).state)
  | Call.lost_connection =>
    ((ExchangeSemantics.lost_connection s).effects,
     (ExchangeSemantics.lost_connection s).state)
  | Call.set_buffer_cache_size sz =>
    ((ExchangeSemantics.set_buffer_cache_size sz s).effects,
     (ExchangeSemantics.set_buffer_cache_size sz s).state)

/-- The state after a finite sequence of calls, first call first. -/
def run (calls : List Call) (s : ExchangeSemantics) : ExchangeSemantics :=
  calls.foldl (fun st c => (c.perform st).2) s

/-- The states a freshly constructed strategy can get into. -/
def Reachable (s : ExchangeSemantics) : Prop :=
  ∃ (max_buffers : Nat) (first_buffer : Buffer) (first_size : Size)
    (first_pf : MirPixelFormat) (calls : List Call),
    s = run calls (ExchangeSemantics.create max_buffers first_buffer first_size first_pf)

/-- The callbacks a list of effects invokes, in order. -/
def invocations (effects : List Effect) : List Callback :=
  effects.filterMap fun e =>
    match e with
    | Effect.callback_invoked cb => some cb
    | _ => none

/-- The `submit_buffer` requests a list of effects sends, in order. -/
def requests (effects : List Effect) : List BufferRequest :=
  effects.filterMap fun e =>
    match e with
    | Effect.submit_buffer request => some request
    | _ => none

/-- The buffers a list of effects hands to the depository, in order. -/
def adoptions (effects : List Effect) : List Nat :=
  effects.filterMap fun e =>
    match e with
    | Effect.deposit_package buffer_id => some buffer_id
    | _ => none

/-- The consistency the strategy keeps between its members: a stored callback
excludes queued arrivals, and the next-buffer handle is armed exactly while a
callback is stored. -/
def Consistent (s : ExchangeSemantics) : Prop :=
  (s.on_incoming_buffer.isSome = true → s.incoming_buffers = []) ∧
  s.next_buffer_wait_handle.is_pending = s.on_incoming_buffer.isSome

/-- The `deposit` calls for a list of arrivals, in order. -/
def deposit_calls (arrivals : List (Buffer × Size × MirPixelFormat)) : List Call :=
  arrivals.map fun a => Call.deposit a.1 a.2.1 a.2.2

/-- The `submit` calls for a list of argument tuples, in order. -/
def submit_calls (submits : List (Callback × Size × MirPixelFormat × Int)) : List Call :=
  submits.map fun a => Call.submit a.1 a.2.1 a.2.2.1 a.2.2.2

/-- The effects of a finite sequence of calls, in order. -/
def trace (calls : List Call) (s : ExchangeSemantics) : List Effect :=
  match calls with
  | [] => []
  | c :: rest => (c.perform s).1 ++ trace rest (c.perform s).2

/-- The callback a call takes on: the `done` of a `submit` that returns. -/
def Call.accepts (c : Call) (s : ExchangeSemantics) : List Callback :=
  match c with
  | Call.submit done sz pf stream_id =>
    match (ExchangeSemantics.submit done sz pf stream_id s).result with
    | Except.ok _ => [done]
    | Except.error _ => []
  | _ => []

/-- The callbacks taken on by the submits of a sequence of calls, in order. -/
def accepted (calls : List Call) (s : ExchangeSemantics) : List Callback :=
  match calls with
  | [] => []
  | c :: rest => c.accepts s ++ accepted rest (c.perform s).2

/-- Whether a call is a `submit`. -/
def Call.is_submit (c : Call) : Bool :=
  match c with
  | Call.submit _ _ _ _ => true
  | _ => false

/-- A history keeps one request at a time when every `submit` in it is made
while no callback is stored. -/
def one_request_at_a_time (calls : List Call) (s : ExchangeSemantics) : Bool :=
  match calls with
  | [] => true
  | c :: rest =>
    (!c.is_submit || s.on_incoming_buffer.isNone) &&
      one_request_at_a_time rest (c.perform s).2

/-! ## The buffer stream (`BufferStream`) -/

/-- Carrying a call on a part of an object over to the whole object. -/
def Progress.lift (p : Progress σ α) (f : σ → τ) : Progress τ α :=
  { effects := p.effects, result := p.result, state := f p.state }

/-- The strategy behind `buffer_depository`: the interface
`ServerBufferSemantics` (buffer_stream.cpp:56-70) with its two implementations. -/
inductive ServerBufferSemantics where
  | exchange (s : ExchangeSemantics)
  | vault (s : NewBufferSemantics)
deriving DecidableEq, Repr

namespace ServerBufferSemantics

/-- Virtual call `deposit`. -/
def deposit (buffer : Buffer) (size : Size) (pf : MirPixelFormat)
    (d : ServerBufferSemantics) : Progress ServerBufferSemantics Unit :=
  match d with
  | exchange s => (ExchangeSemantics.deposit buffer size pf s).progress.lift exchange
  | vault s => (NewBufferSemantics.deposit buffer size pf s).lift vault

/-- Virtual call `set_buffer_cache_size`. -/
def set_buffer_cache_size (sz : Nat) (d : ServerBufferSemantics) :
    Progress ServerBufferSemantics Unit :=
  match d with
  | exchange s => (ExchangeSemantics.set_buffer_cache_size sz s).progress.lift exchange
  | vault s => (NewBufferSemantics.set_buffer_cache_size sz s).lift vault

/-- Virtual call `current_buffer`. -/
def current_buffer (d : ServerBufferSemantics) :
    Progress ServerBufferSemantics (Option ClientBuffer) :=
  match d with
  | exchange s => (ExchangeSemantics.current_buffer s).progress.lift exchange
  | vault s => (NewBufferSemantics.current_buffer s).lift vault

/-- Virtual call `current_buffer_id`. -/
def current_buffer_id (d : ServerBufferSemantics) : Progress ServerBufferSemantics Nat :=
  match d with
  | exchange s => (ExchangeSemantics.current_buffer_id s).progress.lift exchange
  | vault s => (NewBufferSemantics.current_buffer_id s).lift vault

/-- Virtual call `submit`. -/
def submit (done : Callback) (sz : Size) (pf : MirPixelFormat) (stream_id : Int)
    (d : ServerBufferSemantics) : Progress ServerBufferSemantics HandleName :=
  match d with
  | exchange s => (ExchangeSemantics.submit done sz pf stream_id s).progress.lift exchange
  | vault s => (NewBufferSemantics.submit done sz pf stream_id s).lift vault

/-- Virtual call `lost_connection`. -/
def lost_connection (d : ServerBufferSemantics) : Progress ServerBufferSemantics Unit :=
  match d with
  | exchange s => (ExchangeSemantics.lost_connection s).progress.lift exchange
  | vault s => (NewBufferSemantics.lost_connection s).lift vault

/-- Virtual call `set_size`. -/
def set_size (size : Size) (d : ServerBufferSemantics) : Progress ServerBufferSemantics Unit :=
  match d with
  | exchange s => (ExchangeSemantics.set_size size s).progress.lift exchange
  | vault s => (NewBufferSemantics.set_size size s).lift vault

/-- Virtual call `set_scale`. -/
def set_scale (scale : Int) (stream_id : Int) (d : ServerBufferSemantics) :
    Progress ServerBufferSemantics HandleName :=
  match d with
  | exchange s => (ExchangeSemantics.set_scale scale stream_id s).progress.lift exchange
  | vault s => (NewBufferSemantics.set_scale scale stream_id s).lift vault

end ServerBufferSemantics

/-- The enumeration `mcl::BufferStreamMode`: a stream produces frames or, in
screencast mode, consumes them. -/
inductive BufferStreamMode where
  | Producer
  | Consumer
deriving DecidableEq, Repr

/-- The wire record `mir::protobuf::BufferStream`, the answer of the server to a
stream creation, with the fields `buffer_stream.cpp` consumes. -/
structure BufferStreamMessage where
  id : Option Int
  pixel_format : MirPixelFormat
  buffer_usage : Nat
  buffer : Option Buffer
  error : Option String
deriving DecidableEq, Repr

namespace BufferStreamMessage

/-- Accessor `has_id()`. -/
def has_id (m : BufferStreamMessage) : Bool := m.id.isSome

/-- Accessor `has_error()`. -/
def has_error (m : BufferStreamMessage) : Bool := m.error.isSome

/-- Accessor `has_buffer()`. -/
def has_buffer (m : BufferStreamMessage) : Bool := m.buffer.isSome

/-- Accessor `id().value()`: the field, or the protobuf default when absent. -/
def id_value (m : BufferStreamMessage) : Int := m.id.getD 0

/-- Accessor `error()`: the field, or the empty string when absent. -/
def error_text (m : BufferStreamMessage) : String := m.error.getD ""

end BufferStreamMessage

/-- Accessor `error()` of a wire buffer: the field, or the empty string. -/
def Buffer.error_text (b : Buffer) : String := b.error.getD ""

/-- Modelled from the spec: the class `MemoryRegion` and the platform method
`ClientBuffer::secure_for_cpu_write` are not part of the sources at hand.  The
spec calls the result "a direct-memory mapping over the current buffer": a
region records the buffer it maps. -/
structure MemoryRegion where
  buffer : ClientBuffer
deriving DecidableEq, Repr

/-- Modelled from the spec: `ClientBuffer::secure_for_cpu_write()` of the missing
platform class, a mapping over this buffer. -/
def ClientBuffer.secure_for_cpu_write (b : ClientBuffer) : MemoryRegion := { buffer := b }

/-- The value `MirSurfaceParameters` that `get_parameters` returns; the name is
empty and the output id is `mir_display_output_id_invalid`. -/
structure MirSurfaceParameters where
  width : Int
  height : Int
  pixel_format : MirPixelFormat
  buffer_usage : Nat
deriving DecidableEq, Repr

/-- An exception raised by the platform while the constructor builds the
strategy (`factory`, before `buffer_depository` is set) or the native window
(`native_window`, after it is set), with its diagnostic text. -/
inductive PlatformFault where
  | factory (diagnostic : String)
  | native_window (diagnostic : String)
deriving DecidableEq, Repr

/-- The fields of `mcl::BufferStream` that carry state; the connection, the
server, the platform, the perf report and the native window are collaborators. -/
structure BufferStream where
  mode : BufferStreamMode
  protobuf_bs : BufferStreamMessage
  swap_interval_ : Int
  ideal_buffer_size : Size
  nbuffers : Nat
  buffer_depository : ServerBufferSemantics
  cached_buffer_size : Size
  secured_region : Option MemoryRegion
  screencast_wait_handle : MirWaitHandle
  interval_wait_handle : MirWaitHandle
deriving DecidableEq, Repr

namespace BufferStream

/-- The error text the constructor stores when the answer has no id. -/
def no_id_error : String :=
  "Error processing buffer stream create response, no ID (disconnected?)"

/-- Constructor `BufferStream::BufferStream` from the answer of the server
(buffer_stream.cpp:382-454).  `client_buffer_cache_size` is the constant
`mir::frontend::client_buffer_cache_size`, whose header is not at hand; `fault`
is the exception, if any, the platform raises inside the `try` block. -/
def create (client_buffer_cache_size : Nat) (mode : BufferStreamMode)
    (a_protobuf_bs : BufferStreamMessage) (ideal_size : Size) (nbuffers : Nat)
    (fault : Option PlatformFault) : List Effect × Except Exception BufferStream :=
  let protobuf_bs : BufferStreamMessage :=
    if !a_protobuf_bs.has_id then
      if !a_protobuf_bs.has_error then { a_protobuf_bs with error := some no_id_error }
      else a_protobuf_bs
    else a_protobuf_bs
  if protobuf_bs.has_error then
    ([], Except.error
      (Exception.runtime_error ("Can not create buffer stream: " ++ protobuf_bs.error_text)))
  else
    match fault with
    | some (PlatformFault.factory diagnostic) =>
      let failed : BufferStreamMessage := { protobuf_bs with
        error := some ("Error processing buffer stream creating response:" ++ diagnostic) }
      (((failed.buffer.map fun b => b.fd).getD []).map Effect.close_fd,
        Except.error
          (Exception.runtime_error ("Can not create buffer stream: " ++ failed.error_text)))
    | some (PlatformFault.native_window diagnostic) =>
      let failed : BufferStreamMessage := { protobuf_bs with
        error := some ("Error processing buffer stream creating response:" ++ diagnostic) }
      ([], Except.error
        (Exception.runtime_error ("Can not create buffer stream: " ++ failed.error_text)))
    | none =>
      let cached_buffer_size : Size :=
        match protobuf_bs.buffer with
        | some b => { width := b.width, height := b.height }
        | none => { width := 0, height := 0 }
      let buffer_depository : ServerBufferSemantics :=
        match protobuf_bs.buffer with
        | some b =>
          ServerBufferSemantics.exchange
            (ExchangeSemantics.create client_buffer_cache_size b cached_buffer_size
              protobuf_bs.pixel_format)
        | none =>
          ServerBufferSemantics.vault
            (NewBufferSemantics.create ideal_size protobuf_bs.pixel_format)
      if protobuf_bs.has_id && !protobuf_bs.has_error then
        ([], Except.ok
          { mode := mode
            protobuf_bs := protobuf_bs
            swap_interval_ := 1
            ideal_buffer_size := ideal_size
            nbuffers := nbuffers
            buffer_depository := buffer_depository
            cached_buffer_size := cached_buffer_size
            secured_region := none
            screencast_wait_handle := MirWaitHandle.idle
            interval_wait_handle := MirWaitHandle.idle })
      else
        ([], Except.error
          (Exception.runtime_error
            ("Can not create buffer stream: " ++ protobuf_bs.error_text)))

/-- Putting a strategy state back in its stream. -/
def with_depository (st : BufferStream) (d : ServerBufferSemantics) : BufferStream :=
  { st with buffer_depository := d }

/-- Method `BufferStream::process_buffer` (buffer_stream.cpp:508-531). -/
def process_buffer (buffer : Buffer) (st : BufferStream) : Progress BufferStream Unit :=
  let st1 : BufferStream :=
    if buffer.has_width && buffer.has_height then
      { st with cached_buffer_size := { width := buffer.width, height := buffer.height } }
    else st
  if buffer.has_error then
    { effects := []
      result := Completion.thrown
        (Exception.runtime_error ("BufferStream received buffer with error:" ++ buffer.error_text))
      state := st1 }
  else
    let pixel_format := st1.protobuf_bs.pixel_format
    let deposited := (st1.buffer_depository.deposit buffer
      { width := buffer.width, height := buffer.height } pixel_format).lift st1.with_depository
    match deposited.result with
    | Completion.returned _ =>
      { effects := deposited.effects ++ [Effect.begin_frame buffer.buffer_id]
        result := Completion.returned ()
        state := deposited.state }
    | Completion.thrown (Exception.runtime_error what) =>
      { effects := deposited.effects ++
          [Effect.log_error ("Error processing incoming buffer " ++ what)]
        result := Completion.returned ()
        state := deposited.state }
    | _ => deposited

/-- First part of `BufferStream::next_buffer` (buffer_stream.cpp:535-538): under
the lock, close the frame of the current buffer and drop the secured region. -/
def next_buffer_begin (st : BufferStream) : Progress BufferStream Unit :=
  (st.buffer_depository.current_buffer_id.lift st.with_depository).andThen fun id st1 =>
    { effects := [Effect.end_frame id]
      result := Completion.returned ()
      state := { st1 with secured_region := none } }

/-- Second part of `BufferStream::next_buffer` (buffer_stream.cpp:542-564): a
producer hands over to the `submit` of its strategy; a screencast stream arms
the screencast handle and asks the server for a frame. -/
def next_buffer_dispatch (done : Callback) (st : BufferStream) :
    Progress BufferStream HandleName :=
  match st.mode with
  | BufferStreamMode.Producer =>
    (st.buffer_depository.submit done st.cached_buffer_size st.protobuf_bs.pixel_format
      st.protobuf_bs.id_value).lift st.with_depository
  | BufferStreamMode.Consumer =>
    { effects := [Effect.expect_result HandleName.screencast,
                  Effect.screencast_buffer st.protobuf_bs.id_value]
      result := Completion.returned HandleName.screencast
      state := { st with
        screencast_wait_handle := st.screencast_wait_handle.expect_result } }

/-- Method `BufferStream::next_buffer` (buffer_stream.cpp:533-565). -/
def next_buffer (done : Callback) (st : BufferStream) : Progress BufferStream HandleName :=
  (next_buffer_begin st).andThen fun _ st1 => next_buffer_dispatch done st1

/-- Method `BufferStream::get_current_buffer` (buffer_stream.cpp:567-570). -/
def get_current_buffer (st : BufferStream) : Progress BufferStream (Option ClientBuffer) :=
  st.buffer_depository.current_buffer.lift st.with_depository

/-- Method `BufferStream::release_cpu_region` (buffer_stream.cpp:578-582). -/
def release_cpu_region (st : BufferStream) : Progress BufferStream Unit :=
  Progress.done () { st with secured_region := none }

/-- Method `BufferStream::secure_for_cpu_write` (buffer_stream.cpp:584-592): the
current buffer is fetched first; it is asked for a mapping only when no region
is held. -/
def secure_for_cpu_write (st : BufferStream) : Progress BufferStream MemoryRegion :=
  (st.buffer_depository.current_buffer.lift st.with_depository).andThen fun buffer st1 =>
    match st1.secured_region with
    | some region => Progress.done region st1
    | none =>
      match buffer with
      | none => { effects := [], result := Completion.undefined, state := st1 }
      | some b =>
        { effects := [Effect.secure_for_cpu_write b.id]
          result := Completion.returned b.secure_for_cpu_write
          state := { st1 with secured_region := some b.secure_for_cpu_write } }

/-- Method `BufferStream::screencast_buffer_received` (buffer_stream.cpp:594-600),
the completion of the `screencast_buffer` call; `reply` is the buffer the
server wrote into `protobuf_bs`. -/
def screencast_buffer_received (reply : Buffer) (done : Callback) (st : BufferStream) :
    Progress BufferStream Unit :=
  let st1 : BufferStream := { st with protobuf_bs := { st.protobuf_bs with buffer := some reply } }
  (process_buffer reply st1).andThen fun _ st2 =>
    { effects := [Effect.callback_invoked done, Effect.result_received HandleName.screencast]
      result := Completion.returned ()
      state := { st2 with
        screencast_wait_handle := st2.screencast_wait_handle.result_received } }

/-- Method `BufferStream::get_parameters` (buffer_stream.cpp:603-613). -/
def get_parameters (st : BufferStream) : MirSurfaceParameters :=
  { width := st.cached_buffer_size.width
    height := st.cached_buffer_size.height
    pixel_format := st.protobuf_bs.pixel_format
    buffer_usage := st.protobuf_bs.buffer_usage }

/-- Method `BufferStream::on_swap_interval_set` (buffer_stream.cpp:620-625), the
completion of the request made by `set_swap_interval`. -/
def on_swap_interval_set (interval : Int) (st : BufferStream) : Progress BufferStream Unit :=
  { effects := [Effect.result_received HandleName.interval]
    result := Completion.returned ()
    state := { st with
      swap_interval_ := interval
      interval_wait_handle := st.interval_wait_handle.result_received } }

/-- Method `BufferStream::get_current_buffer_id` (buffer_stream.cpp:642-646). -/
def get_current_buffer_id (st : BufferStream) : Progress BufferStream Nat :=
  st.buffer_depository.current_buffer_id.lift st.with_depository

/-- Method `BufferStream::swap_interval` (buffer_stream.cpp:648-652). -/
def swap_interval (st : BufferStream) : Int := st.swap_interval_

/-- Method `BufferStream::set_swap_interval` (buffer_stream.cpp:654-668). -/
def set_swap_interval (interval : Int) (st : BufferStream) :
    Progress BufferStream HandleName :=
  if st.mode ≠ BufferStreamMode.Producer then
    { effects := []
      result := Completion.thrown
        (Exception.logic_error "Attempt to set swap interval on screencast is invalid")
      state := st }
  else
    let configuration : StreamConfiguration :=
      { id := st.protobuf_bs.id_value, scale := none, swapinterval := some interval }
    { effects := [Effect.expect_result HandleName.interval,
                  Effect.configure_buffer_stream configuration]
      result := Completion.returned HandleName.interval
      state := { st with interval_wait_handle := st.interval_wait_handle.expect_result } }

/-- Method `BufferStream::valid` (buffer_stream.cpp:689-693). -/
def valid (st : BufferStream) : Bool := st.protobuf_bs.has_id && !st.protobuf_bs.has_error

/-- Method `BufferStream::set_buffer_cache_size` (buffer_stream.cpp:695-699). -/
def set_buffer_cache_size (cache_size : Nat) (st : BufferStream) :
    Progress BufferStream Unit :=
  (st.buffer_depository.set_buffer_cache_size cache_size).lift st.with_depository

/-- Method `BufferStream::buffer_available` (buffer_stream.cpp:701-705). -/
def buffer_available (buffer : Buffer) (st : BufferStream) : Progress BufferStream Unit :=
  process_buffer buffer st

/-- Method `BufferStream::buffer_unavailable` (buffer_stream.cpp:707-711). -/
def buffer_unavailable (st : BufferStream) : Progress BufferStream Unit :=
  st.buffer_depository.lost_connection.lift st.with_depository

/-- Method `BufferStream::set_size` (buffer_stream.cpp:713-716). -/
def set_size (sz : Size) (st : BufferStream) : Progress BufferStream Unit :=
  (st.buffer_depository.set_size sz).lift st.with_depository

/-- Method `BufferStream::set_scale` (buffer_stream.cpp:718-721). -/
def set_scale (scale : Int) (st : BufferStream) : Progress BufferStream HandleName :=
  (st.buffer_depository.set_scale scale st.protobuf_bs.id_value).lift st.with_depository

end BufferStream

/-- One call on a buffer stream, with its arguments; the two completions of
requests to the server count as calls too. -/
inductive StreamCall where
  | next_buffer (done : Callback)
  | get_current_buffer
  | get_current_buffer_id
  | release_cpu_region
  | secure_for_cpu_write
  | screencast_buffer_received (reply : Buffer) (done : Callback)
  | on_swap_interval_set (interval : Int)
  | set_swap_interval (interval : Int)
  | set_buffer_cache_size (cache_size : Nat)
  | buffer_available (buffer : Buffer)
  | buffer_unavailable
  | set_size (sz : Size)
  | set_scale (scale : Int)
deriving DecidableEq, Repr

/-- The state a stream is in after one call, whether the call returned, threw or
is still waiting. -/
def StreamCall.perform (c : StreamCall) (st : BufferStream) : BufferStream :=
  match c with
  | StreamCall.next_buffer done => (BufferStream.next_buffer done st).state
  | StreamCall.get_current_buffer => (BufferStream.get_current_buffer st).state
  | StreamCall.get_current_buffer_id => (BufferStream.get_current_buffer_id st).state
  | StreamCall.release_cpu_region => (BufferStream.release_cpu_region st).state
  | StreamCall.secure_for_cpu_write => (BufferStream.secure_for_cpu_write st).state
  | StreamCall.screencast_buffer_received reply done =>
    (BufferStream.screencast_buffer_received reply done st).state
  | StreamCall.on_swap_interval_set interval =>
    (BufferStream.on_swap_interval_set interval st).state
  | StreamCall.set_swap_interval interval => (BufferStream.set_swap_interval interval st).state
  | StreamCall.set_buffer_cache_size cache_size =>
    (BufferStream.set_buffer_cache_size cache_size st).state
  | StreamCall.buffer_available buffer => (BufferStream.buffer_available buffer st).state
  | StreamCall.buffer_unavailable => (BufferStream.buffer_unavailable st).state
  | StreamCall.set_size sz => (BufferStream.set_size sz st).state
  | StreamCall.set_scale scale => (BufferStream.set_scale scale st).state

/-- The state of a stream after a finite sequence of calls, first call first. -/
def run_stream (calls : List StreamCall) (st : BufferStream) : BufferStream :=
  calls.foldl (fun s c => c.perform s) st

/-- Whether a call leaves the secured region alone by its contract: every call
but `release_cpu_region` and `next_buffer`. -/
def StreamCall.keeps_region (c : StreamCall) : Bool :=
  match c with
  | StreamCall.release_cpu_region => false
  | StreamCall.next_buffer _ => false
  | _ => true

/-- Whether a strategy can name its current buffer without going to the pool:
always for Ping-Pong, for Vault once a buffer is cached. -/
def ServerBufferSemantics.current_at_hand (d : ServerBufferSemantics) : Bool :=
  match d with
  | ServerBufferSemantics.exchange _ => true
  | ServerBufferSemantics.vault v => v.current.buffer.isSome

/-! ## Observations on effects, arming and locking -/

/-- The `configure_buffer_stream` requests a list of effects sends, in order. -/
def configurations (effects : List Effect) : List StreamConfiguration :=
  effects.filterMap fun e =>
    match e with
    | Effect.configure_buffer_stream configuration => some configuration
    | _ => none

/-- Whether a call is a `submit` that calls `expect_result()` on the next-buffer
wait handle while that handle is still expecting a result. -/
def Call.arms_armed_handle (c : Call) (s : ExchangeSemantics) : Bool :=
  c.is_submit &&
    decide (Effect.expect_result HandleName.next_buffer ∈ (c.perform s).1) &&
    s.next_buffer_wait_handle.is_pending

/-- Whether some `submit` of a sequence of calls arms the next-buffer wait handle
while it is still expecting. -/
def double_arms (calls : List Call) (s : ExchangeSemantics) : Bool :=
  match calls with
  | [] => false
  | c :: rest => c.arms_armed_handle s || double_arms rest (c.perform s).2

/-- A step of a method as seen on its mutex: taking it, releasing it, or an
effect performed in between. -/
inductive LockStep where
  | lock
  | unlock
  | act (e : Effect)
deriving DecidableEq, Repr

/-- The effects among a list of steps, in order. -/
def acts (steps : List LockStep) : List Effect :=
  steps.filterMap fun step =>
    match step with
    | LockStep.act e => some e
    | _ => none

/-- For every effect of a list of steps that satisfies `which`, in order,
whether the mutex is held when it happens; `held` says whether it is held at
the start. -/
def held_at (which : Effect → Bool) (held : Bool) (steps : List LockStep) : List Bool :=
  match steps with
  | [] => []
  | LockStep.lock :: rest => held_at which true rest
  | LockStep.unlock :: rest => held_at which false rest
  | LockStep.act e :: rest =>
    if which e then held :: held_at which held rest else held_at which held rest

/-- Whether an effect is the invocation of a callback. -/
def Effect.is_callback (e : Effect) : Bool :=
  match e with
  | Effect.callback_invoked _ => true
  | _ => false

/-- Whether an effect is the `submit_buffer` call to the server. -/
def Effect.is_submit_buffer (e : Effect) : Bool :=
  match e with
  | Effect.submit_buffer _ => true
  | _ => false

namespace ExchangeSemantics

/-- Method `ExchangeSemantics::deposit` (buffer_stream.cpp:127-146) with its
mutex: the `unique_lock` of line 129 is held until the method ends. -/
def deposit_steps (buffer : Buffer) (_ : Size) (_ : MirPixelFormat)
    (s : ExchangeSemantics) : List LockStep :=
  match s.on_incoming_buffer with
  | some _ =>
    [LockStep.lock, LockStep.act (Effect.deposit_package buffer.buffer_id)] ++
    (match s.on_incoming_buffer with
      | some cb =>
        [LockStep.act (Effect.callback_invoked cb),
         LockStep.act (Effect.result_received HandleName.next_buffer)]
      | none => []) ++
    [LockStep.unlock]
  | none => [LockStep.lock, LockStep.unlock]

/-- Method `ExchangeSemantics::submit` (buffer_stream.cpp:166-197) with its
mutex: taken at line 168, released at line 175 around the `submit_buffer` call,
taken again at line 180 and held until the method ends or throws. -/
def submit_steps (done : Callback) (_ : Size) (_ : MirPixelFormat) (stream_id : Int)
    (s : ExchangeSemantics) : List LockStep :=
  if s.server_connection_lost then [LockStep.lock, LockStep.unlock]
  else
    [LockStep.lock, LockStep.unlock,
     LockStep.act (Effect.submit_buffer
       { id := stream_id, buffer_id := s.wrapped.current_buffer_id }),
     LockStep.lock] ++
    (if s.server_connection_lost then []
     else
      match s.incoming_buffers with
      | [] => [LockStep.act (Effect.expect_result HandleName.next_buffer)]
      | front :: _ =>
        [LockStep.act (Effect.deposit_package front.buffer_id),
         LockStep.act (Effect.callback_invoked done)]) ++
    [LockStep.unlock]

/-- Method `ExchangeSemantics::lost_connection` (buffer_stream.cpp:199-210) with
its mutex: the `unique_lock` of line 201 is held until the method ends. -/
def lost_connection_steps (s : ExchangeSemantics) : List LockStep :=
  [LockStep.lock] ++
  (match s.on_incoming_buffer with
    | some cb => [LockStep.act (Effect.callback_invoked cb)]
    | none => []) ++
  (if s.next_buffer_wait_handle.is_pending
    then [LockStep.act (Effect.result_received HandleName.next_buffer)] else []) ++
  [LockStep.unlock]

end ExchangeSemantics

end client

/-! ## The FD channel (`mir::send_fds`)

A shallow embedding of `src/src/common/fd/fd_socket_transmission.cpp`.  Sizes
are `size_t` values: naturals reduced modulo `2 ^ 64`.  The `CMSG_` macros and
the sizes of `int`, `size_t` and `struct cmsghdr` come from the C library; they
are written out as glibc defines them on 64-bit Linux. -/

/-- The size of `int`, in bytes. -/
def sizeof_int : Nat := 4

/-- The size of `size_t`, in bytes. -/
def sizeof_size_t : Nat := 8

/-- The size of `struct cmsghdr`, in bytes: a `size_t` length and two `int`s. -/
def sizeof_cmsghdr : Nat := 16

/-- One more than the largest `size_t`. -/
def size_t_range : Nat := 2 ^ 64

/-- The constant `SOL_SOCKET` of `<sys/socket.h>`. -/
def SOL_SOCKET : Int := 1

/-- The constant `SCM_RIGHTS` of `<sys/socket.h>`. -/
def SCM_RIGHTS : Int := 1

/-- The macro `CMSG_ALIGN(len)`: `(len + sizeof(size_t) - 1) & ~(sizeof(size_t) - 1)`,
the length rounded up to a multiple of the size of `size_t`. -/
def CMSG_ALIGN (len : Nat) : Nat :=
  (len + sizeof_size_t - 1) % size_t_range / sizeof_size_t * sizeof_size_t

/-- The macro `CMSG_SPACE(len)`: `CMSG_ALIGN(len) + CMSG_ALIGN(sizeof(struct cmsghdr))`. -/
def CMSG_SPACE (len : Nat) : Nat :=
  (CMSG_ALIGN len + CMSG_ALIGN sizeof_cmsghdr) % size_t_range

/-- The macro `CMSG_LEN(len)`: `CMSG_ALIGN(sizeof(struct cmsghdr)) + len`. -/
def CMSG_LEN (len : Nat) : Nat :=
  (CMSG_ALIGN sizeof_cmsghdr + len) % size_t_range

/-- The offset of `CMSG_DATA(cmsg)` from the start of the control message: the
data follow the header. -/
def CMSG_DATA_offset : Nat := sizeof_cmsghdr

/-- Modelled from the spec: the class `mir::VariableLengthArray` is not part of
the sources at hand.  The spec describes "a small fixed-size inline allocation
for common small counts, falling back to a larger allocation only when
needed": an array of `size` zeroed bytes that lives in its built-in storage
when `size` fits there. -/
structure VariableLengthArray where
  builtin : Nat
  size : Nat
deriving DecidableEq, Repr

/-- Modelled from the spec: whether the array of the missing class had to fall
back to "a larger allocation". -/
def VariableLengthArray.on_heap (a : VariableLengthArray) : Bool := decide (a.builtin < a.size)

/-- The control message built at `CMSG_FIRSTHDR`: the three header fields and
the `int`s stored from `CMSG_DATA` on, each with its byte offset in the control
buffer. -/
structure ControlMessage where
  cmsg_len : Nat
  cmsg_level : Int
  cmsg_type : Int
  data : List (Nat × Int)
deriving DecidableEq, Repr

/-- The `struct msghdr` handed to `sendmsg`, with the one `iovec` (its bytes)
and the control buffer it points to. -/
structure Msghdr where
  msg_namelen : Nat
  msg_iov : List (List Nat)
  msg_controllen : Nat
  control : VariableLengthArray
  message : ControlMessage
  msg_flags : Int
deriving DecidableEq, Repr

/-- The local `fds_bytes`: `fds.size() * sizeof(int)` in `size_t` arithmetic. -/
def fds_bytes (count : Nat) : Nat := count * sizeof_int % size_t_range

/-- The local `builtin_cmsg_space`: `CMSG_SPACE(builtin_n_fds * sizeof(int))`
with `builtin_n_fds = 5`. -/
def builtin_cmsg_space : Nat := CMSG_SPACE (5 * sizeof_int)

/-- The loop `for (auto& fd : fds) data[i++] = fd;`: descriptor `i` is stored
at `CMSG_DATA` plus `i` ints. -/
def store_fds (fds : List Int) (i : Nat) : List (Nat × Int) :=
  match fds with
  | [] => []
  | fd :: rest => (CMSG_DATA_offset + i * sizeof_int, fd) :: store_fds rest (i + 1)

/-- The message `send_fds` builds for a non-empty list
(fd_socket_transmission.cpp:10-43): one dummy byte 'M', a zeroed control
buffer of `CMSG_SPACE(fds_bytes)` bytes, and in it one control message with
the descriptors. -/
def fds_message (fds : List Int) : Msghdr :=
  let control : VariableLengthArray :=
    { builtin := builtin_cmsg_space, size := CMSG_SPACE (fds_bytes fds.length) }
  { msg_namelen := 0
    msg_iov := [['M'.toNat]]
    msg_controllen := control.size
    control := control
    message :=
      { cmsg_len := CMSG_LEN (fds_bytes fds.length)
        cmsg_level := SOL_SOCKET
        cmsg_type := SCM_RIGHTS
        data := store_fds fds 0 }
    msg_flags := 0 }

/-- Function `mir::send_fds` (fd_socket_transmission.cpp:4-49).  The descriptors
are their `int` values; `sent` is what `sendmsg` returns and `reason` is
`strerror(errno)` at that moment.  The answer is the list of `sendmsg` calls
made, each with its header, and what the function returns or throws. -/
def send_fds (sent : Int) (reason : String) (fds : List Int) :
    List Msghdr × Except client.Exception Unit :=
  if fds.length > 0 then
    ([fds_message fds],
      if sent < 0 then
        Except.error (client.Exception.runtime_error ("Failed to send fds: " ++ reason))
      else Except.ok ())
  else ([], Except.ok ())

namespace client

/-! ## Sample values -/

/-- A 4x4 wire buffer with the given id and no error. -/
def sample_buffer (id : Nat) : Buffer :=
  { buffer_id := id, fd := [3], data := [], opt_width := some 4, opt_height := some 4,
    stride := 16, flags := 0, error := none }

/-- A 4x4 size. -/
def sample_size : Size := { width := 4, height := 4 }

/-- A strategy constructed with a cache of 3 and first buffer 0. -/
def sample_fresh : ExchangeSemantics :=
  ExchangeSemantics.create 3 (sample_buffer 0) sample_size 0

/-- The call `deposit` of the sample buffer with the given id. -/
def sample_deposit (id : Nat) : Call :=
  Call.deposit (sample_buffer id) sample_size 0

/-- The call `submit` with the callback of the given token on stream 5. -/
def sample_submit (token : Nat) : Call :=
  Call.submit { token := token } sample_size 0 5

/-- The adopted form of the sample buffer with the given id. -/
def sample_client_buffer (id : Nat) : ClientBuffer :=
  { package := populate_buffer_package (sample_buffer id), id := id, size := sample_size,
    pf := 0 }

/-- A Vault strategy with nothing cached whose pool holds buffers 1 to k. -/
def sample_vault (k : Nat) : NewBufferSemantics :=
  { NewBufferSemantics.create sample_size 0 with
    vault := { BufferVault.create sample_size 0 with
      available := (List.range k).map fun i => sample_client_buffer (i + 1) } }

/-- The answer of a server that created stream 5 and sent buffer 0 with it. -/
def sample_answer : BufferStreamMessage :=
  { id := some 5, pixel_format := 0, buffer_usage := 0, buffer := some (sample_buffer 0),
    error := none }

/-- The producer stream built from the sample answer: Ping-Pong strategy. -/
def sample_stream : BufferStream :=
  { mode := BufferStreamMode.Producer
    protobuf_bs := sample_answer
    swap_interval_ := 1
    ideal_buffer_size := sample_size
    nbuffers := 3
    buffer_depository := ServerBufferSemantics.exchange sample_fresh
    cached_buffer_size := sample_size
    secured_region := none
    screencast_wait_handle := MirWaitHandle.idle
    interval_wait_handle := MirWaitHandle.idle }

/-- A wire buffer with id 9 and size 8x6 that carries an error marker. -/
def sample_error_buffer : Buffer :=
  { buffer_id := 9, fd := [], data := [], opt_width := some 8, opt_height := some 6,
    stride := 0, flags := 0, error := some "lost" }

/-- A screencast stream built from the sample answer: Ping-Pong strategy. -/
def sample_screencast : BufferStream := { sample_stream with mode := BufferStreamMode.Consumer }

/-- A producer stream built from an answer without a buffer: Vault strategy,
nothing cached, empty pool. -/
def sample_vault_stream : BufferStream :=
  { sample_stream with
    protobuf_bs := { sample_answer with buffer := none }
    buffer_depository := ServerBufferSemantics.vault (sample_vault 0)
    cached_buffer_size := { width := 0, height := 0 } }

/-! ## Shared lemmas -/

open ExchangeSemantics

theorem create_consistent (max_buffers : Nat) (first_buffer : Buffer) (first_size : Size)
    (first_pf : MirPixelFormat) :
    Consistent (create max_buffers first_buffer first_size first_pf) := by
  constructor
  · intro _; rfl
  · rfl

theorem deposit_consistent (buffer : Buffer) (size : Size) (pf : MirPixelFormat)
    (s : ExchangeSemantics) (h : Consistent s) :
    Consistent (deposit buffer size pf s).state := by
  obtain ⟨hq, hw⟩ := h
  unfold deposit
  cases hcb : s.on_incoming_buffer with
  | none =>
    refine ⟨?_, ?_⟩
    · intro hsome
      simp [hcb] at hsome
    · simpa [hcb] using hw
  | some cb =>
    refine ⟨?_, ?_⟩
    · intro _
      simpa [hcb] using hq
    · simp [hcb, MirWaitHandle.result_received, MirWaitHandle.is_pending]

theorem submit_consistent (done : Callback) (sz : Size) (pf : MirPixelFormat)
    (stream_id : Int) (s : ExchangeSemantics) (h : Consistent s) :
    Consistent (submit done sz pf stream_id s).state := by
  obtain ⟨hq, hw⟩ := h
  unfold submit submit_request submit_complete
  cases hl : s.server_connection_lost with
  | true => simpa [hl] using And.intro hq hw
  | false =>
    cases hb : s.incoming_buffers with
    | nil =>
      simp [hl, hb, Consistent, MirWaitHandle.expect_result, MirWaitHandle.is_pending]
    | cons front rest =>
      have hnone : s.on_incoming_buffer = none := by
        cases hcb : s.on_incoming_buffer with
        | none => rfl
        | some cb =>
          have := hq (by simp [hcb])
          simp [hb] at this
      refine ⟨?_, ?_⟩
      · intro hsome
        simp [hl, hb, hnone] at hsome
      · simpa [hl, hb, hnone] using hw

theorem lost_connection_consistent (s : ExchangeSemantics) (h : Consistent s) :
    Consistent (lost_connection s).state := by
  obtain ⟨hq, hw⟩ := h
  unfold lost_connection
  cases hcb : s.on_incoming_buffer with
  | none =>
    cases hh : s.next_buffer_wait_handle <;>
      simp_all [Consistent, MirWaitHandle.is_pending]
  | some cb =>
    cases hh : s.next_buffer_wait_handle <;>
      simp_all [Consistent, MirWaitHandle.result_received, MirWaitHandle.is_pending]

theorem perform_consistent (c : Call) (s : ExchangeSemantics) (h : Consistent s) :
    Consistent (c.perform s).2 := by
  cases c with
  | submit done sz pf stream_id => exact submit_consistent done sz pf stream_id s h
  | deposit buffer size pf => exact deposit_consistent buffer size pf s h
  | lost_connection => exact lost_connection_consistent s h
  | set_buffer_cache_size sz => exact h

theorem run_consistent (calls : List Call) (s : ExchangeSemantics) (h : Consistent s) :
    Consistent (run calls s) := by
  induction calls generalizing s with
  | nil => exact h
  | cons c rest ih => exact ih (c.perform s).2 (perform_consistent c s h)

theorem reachable_consistent (s : ExchangeSemantics) (h : Reachable s) : Consistent s := by
  obtain ⟨max_buffers, first_buffer, first_size, first_pf, calls, rfl⟩ := h
  exact run_consistent calls _ (create_consistent max_buffers first_buffer first_size first_pf)

theorem run_append (l₁ l₂ : List Call) (s : ExchangeSemantics) :
    run (l₁ ++ l₂) s = run l₂ (run l₁ s) := by
  simp [run, List.foldl_append]

theorem run_cons (c : Call) (l : List Call) (s : ExchangeSemantics) :
    run (c :: l) s = run l (c.perform s).2 := rfl

theorem perform_keeps_lost (c : Call) (s : ExchangeSemantics)
    (h : s.server_connection_lost = true) : (c.perform s).2.server_connection_lost = true := by
  cases c with
  | submit done sz pf stream_id =>
    simp [Call.perform, submit, submit_request, h]
  | deposit buffer size pf =>
    simp only [Call.perform, deposit]
    cases hcb : s.on_incoming_buffer <;> simp [h]
  | lost_connection =>
    simp only [Call.perform, lost_connection]
    cases hcb : s.on_incoming_buffer <;>
      cases hh : s.next_buffer_wait_handle <;> simp [MirWaitHandle.is_pending]
  | set_buffer_cache_size sz =>
    simp [Call.perform, set_buffer_cache_size, h]

theorem run_keeps_lost (calls : List Call) (s : ExchangeSemantics)
    (h : s.server_connection_lost = true) : (run calls s).server_connection_lost = true := by
  induction calls generalizing s with
  | nil => exact h
  | cons c rest ih => exact ih (c.perform s).2 (perform_keeps_lost c s h)

theorem lost_connection_sets_lost (s : ExchangeSemantics) :
    (lost_connection s).state.server_connection_lost = true := by
  unfold lost_connection
  cases hcb : s.on_incoming_buffer <;>
    cases hh : s.next_buffer_wait_handle <;> simp [MirWaitHandle.is_pending]

/-- Deposits made while no callback is stored only extend the arrival queue. -/
theorem run_deposit_calls (arrivals : List (Buffer × Size × MirPixelFormat))
    (s : ExchangeSemantics) (hcb : s.on_incoming_buffer = none) :
    run (deposit_calls arrivals) s
      = { s with incoming_buffers := s.incoming_buffers ++ arrivals.map (fun a => a.1) } := by
  induction arrivals generalizing s with
  | nil => simp [deposit_calls, run]
  | cons a rest ih =>
    have hstep : ((Call.deposit a.1 a.2.1 a.2.2).perform s).2
        = { s with incoming_buffers := s.incoming_buffers ++ [a.1] } := by
      simp [Call.perform, deposit, hcb]
    have hrun : run (deposit_calls (a :: rest)) s
        = run (deposit_calls rest) ((Call.deposit a.1 a.2.1 a.2.2).perform s).2 := rfl
    rw [hrun, hstep, ih _ (by simpa using hcb)]
    simp

/-- Submits on a connected strategy whose queue holds enough arrivals consume
the queue from the front, one entry each. -/
theorem run_submit_calls (submits : List (Callback × Size × MirPixelFormat × Int))
    (s : ExchangeSemantics) (hconn : s.server_connection_lost = false)
    (hlen : submits.length ≤ s.incoming_buffers.length) :
    (run (submit_calls submits) s).server_connection_lost = false ∧
    (run (submit_calls submits) s).incoming_buffers
      = s.incoming_buffers.drop submits.length := by
  induction submits generalizing s with
  | nil => simp [submit_calls, run, hconn]
  | cons a rest ih =>
    cases hq : s.incoming_buffers with
    | nil => simp [hq] at hlen
    | cons front tail =>
      have hstate : ((Call.submit a.1 a.2.1 a.2.2.1 a.2.2.2).perform s).2.server_connection_lost
            = false ∧
          ((Call.submit a.1 a.2.1 a.2.2.1 a.2.2.2).perform s).2.incoming_buffers = tail := by
        simp [Call.perform, submit, submit_request, submit_complete, hconn, hq]
      have hrun : run (submit_calls (a :: rest)) s
          = run (submit_calls rest) ((Call.submit a.1 a.2.1 a.2.2.1 a.2.2.2).perform s).2 := rfl
      have hlen2 : rest.length ≤
          ((Call.submit a.1 a.2.1 a.2.2.1 a.2.2.2).perform s).2.incoming_buffers.length := by
        rw [hstate.2]
        simp [hq] at hlen
        exact hlen
      have h := ih _ hstate.1 hlen2
      rw [hrun]
      refine ⟨h.1, ?_⟩
      rw [h.2, hstate.2]
      simp

/-- One submit on a connected strategy with a queued arrival adopts the front. -/
theorem submit_front_current (s : ExchangeSemantics) (done : Callback) (sz : Size)
    (pf : MirPixelFormat) (stream_id : Int) (front : Buffer) (rest : List Buffer)
    (hconn : s.server_connection_lost = false) (hq : s.incoming_buffers = front :: rest) :
    (run [Call.submit done sz pf stream_id] s).wrapped.current
      = some { package := populate_buffer_package front, id := front.buffer_id,
               size := sz, pf := pf } := by
  have hrun : run [Call.submit done sz pf stream_id] s
      = (submit done sz pf stream_id s).state := rfl
  rw [hrun]
  simp [submit, submit_request, submit_complete, hconn, hq,
    ClientBufferDepository.deposit_package]

/-! ## The Ping-Pong strategy: invariant, reads and deposits -/

/-- C1: in every state a freshly constructed Ping-Pong strategy reaches by a
finite sequence of submit, deposit, lost_connection (and set_buffer_cache_size)
calls, a stored completion callback and a non-empty arrival queue never occur
together. -/
theorem pending_callback_excludes_queue (max_buffers : Nat) (first_buffer : Buffer)
    (first_size : Size) (first_pf : MirPixelFormat) (calls : List Call) :
    ¬ ((run calls (create max_buffers first_buffer first_size first_pf)).on_incoming_buffer.isSome
          = true ∧
        (run calls (create max_buffers first_buffer first_size first_pf)).incoming_buffers
          ≠ []) := by
  intro hboth
  have hc := run_consistent calls _
    (create_consistent max_buffers first_buffer first_size first_pf)
  exact hboth.2 (hc.1 hboth.1)

/-- C2, as stated, fails: on a fresh strategy that has already queued buffer 1,
depositing buffer 2 and reading `current_buffer_id()` at once yields 1, the id
at the front of the queue, and not 2. -/
theorem deposit_then_current_buffer_id_not_deposited :
    (current_buffer_id
        (deposit (sample_buffer 2) sample_size 0
          (deposit (sample_buffer 1) sample_size 0 sample_fresh).state).state).result
      = Except.ok 1 ∧
    (current_buffer_id
        (deposit (sample_buffer 2) sample_size 0
          (deposit (sample_buffer 1) sample_size 0 sample_fresh).state).state).result
      ≠ Except.ok (sample_buffer 2).buffer_id := by
  constructor
  · rfl
  · intro h
    have h2 : (Except.ok 1 : Except Exception Nat) = Except.ok 2 := h
    injection h2 with h3
    exact absurd h3 (by decide)

/-- C2, amended: for every state and buffer b, `deposit(b)` followed at once by
`current_buffer_id()` returns the id of b when the arrival queue was empty
before the deposit, and the id at the front of that queue otherwise. -/
theorem deposit_then_current_buffer_id (s : ExchangeSemantics) (b : Buffer) (size : Size)
    (pf : MirPixelFormat) :
    (current_buffer_id (deposit b size pf s).state).result
      = Except.ok (match s.incoming_buffers with
          | [] => b.buffer_id
          | front :: _ => front.buffer_id) := by
  unfold deposit
  cases hcb : s.on_incoming_buffer with
  | none =>
    cases hq : s.incoming_buffers with
    | nil => simp [current_buffer_id, hq]
    | cons front rest => simp [current_buffer_id, hq]
  | some cb =>
    cases hq : s.incoming_buffers with
    | nil =>
      simp [current_buffer_id, hq, ClientBufferDepository.deposit_package,
        ClientBufferDepository.current_buffer_id]
    | cons front rest => simp [current_buffer_id, hq]

/-- C3: `current_buffer_id()` returns the id at the front of the arrival queue
when the queue is non-empty and the id of the adopted current buffer otherwise,
performs no effect and leaves the whole state, queue and adopted buffer
included, as it was. -/
theorem current_buffer_id_reports_front (s : ExchangeSemantics) :
    (current_buffer_id s).result
      = Except.ok (match s.incoming_buffers with
          | front :: _ => front.buffer_id
          | [] => s.wrapped.current_buffer_id) ∧
    (current_buffer_id s).state = s ∧
    (current_buffer_id s).state.incoming_buffers = s.incoming_buffers ∧
    (current_buffer_id s).state.wrapped.current = s.wrapped.current ∧
    (current_buffer_id s).effects = [] := by
  unfold current_buffer_id
  cases hq : s.incoming_buffers <;> simp [hq]

/-- C4: when a completion callback is pending, `deposit(b)` adopts b as the
current buffer, invokes that callback exactly once, resolves the next-buffer
wait handle, leaves no callback pending and leaves the arrival queue as it
was. -/
theorem deposit_hands_buffer_to_waiter (s : ExchangeSemantics) (cb : Callback) (b : Buffer)
    (size : Size) (pf : MirPixelFormat) (hpending : s.on_incoming_buffer = some cb) :
    (deposit b size pf s).state.wrapped.current
      = some { package := populate_buffer_package b, id := b.buffer_id, size := size, pf := pf } ∧
    (deposit b size pf s).state.wrapped.current_buffer_id = b.buffer_id ∧
    invocations (deposit b size pf s).effects = [cb] ∧
    (deposit b size pf s).effects
      = [Effect.deposit_package b.buffer_id, Effect.callback_invoked cb,
         Effect.result_received HandleName.next_buffer] ∧
    (deposit b size pf s).state.next_buffer_wait_handle = MirWaitHandle.resolved ∧
    (deposit b size pf s).state.next_buffer_wait_handle.is_pending = false ∧
    (deposit b size pf s).state.on_incoming_buffer = none ∧
    (deposit b size pf s).state.incoming_buffers = s.incoming_buffers := by
  simp [deposit, hpending, invocations, ClientBufferDepository.deposit_package,
    ClientBufferDepository.current_buffer_id, MirWaitHandle.result_received,
    MirWaitHandle.is_pending]

/-- C4 at a concrete state: a fresh strategy after one submit holds callback 7,
and depositing buffer 1 hands it over. -/
theorem deposit_hands_buffer_to_waiter_witness :
    (run [sample_submit 7] sample_fresh).on_incoming_buffer = some { token := 7 } ∧
    (deposit (sample_buffer 1) sample_size 0
        (run [sample_submit 7] sample_fresh)).state.wrapped.current_buffer_id = 1 ∧
    invocations (deposit (sample_buffer 1) sample_size 0
        (run [sample_submit 7] sample_fresh)).effects = [{ token := 7 }] ∧
    (deposit (sample_buffer 1) sample_size 0
        (run [sample_submit 7] sample_fresh)).state.on_incoming_buffer = none :=
  have h := deposit_hands_buffer_to_waiter (run [sample_submit 7] sample_fresh)
    { token := 7 } (sample_buffer 1) sample_size 0 rfl
  ⟨rfl, h.2.1, h.2.2.1, h.2.2.2.2.2.2.1⟩

/-! ## The Ping-Pong strategy: submit -/

/-- C5: in every reachable connected state whose arrival queue is non-empty,
`submit(done, ...)` adopts the buffer at the front of the queue as current,
removes exactly that entry, invokes `done` exactly once within the call, leaves
no callback pending, and neither arms the wait handle nor leaves it armed. -/
theorem submit_adopts_queued_front (s : ExchangeSemantics) (done : Callback) (sz : Size)
    (pf : MirPixelFormat) (stream_id : Int) (front : Buffer) (rest : List Buffer)
    (hreach : Reachable s) (hconn : s.server_connection_lost = false)
    (hq : s.incoming_buffers = front :: rest) :
    (submit done sz pf stream_id s).result = Except.ok HandleName.next_buffer ∧
    (submit done sz pf stream_id s).state.wrapped.current
      = some { package := populate_buffer_package front, id := front.buffer_id,
               size := sz, pf := pf } ∧
    (submit done sz pf stream_id s).state.incoming_buffers = rest ∧
    invocations (submit done sz pf stream_id s).effects = [done] ∧
    (submit done sz pf stream_id s).state.on_incoming_buffer = none ∧
    (submit done sz pf stream_id s).state.next_buffer_wait_handle
      = s.next_buffer_wait_handle ∧
    (submit done sz pf stream_id s).state.next_buffer_wait_handle.is_pending = false ∧
    Effect.expect_result HandleName.next_buffer ∉ (submit done sz pf stream_id s).effects := by
  obtain ⟨hexcl, harmed⟩ := reachable_consistent s hreach
  have hnone : s.on_incoming_buffer = none := by
    cases hcb : s.on_incoming_buffer with
    | none => rfl
    | some cb =>
      have := hexcl (by simp [hcb])
      simp [hq] at this
  have hidle : s.next_buffer_wait_handle.is_pending = false := by
    simpa [hnone] using harmed
  simp [submit, submit_request, submit_complete, hconn, hq, hnone, hidle, invocations,
    ClientBufferDepository.deposit_package]

/-- C5 at a concrete state: a fresh strategy that queued buffers 1 and 2
adopts buffer 1 on submit and keeps buffer 2 queued. -/
theorem submit_adopts_queued_front_witness :
    Reachable (run [sample_deposit 1, sample_deposit 2] sample_fresh) ∧
    (run [sample_deposit 1, sample_deposit 2] sample_fresh).server_connection_lost = false ∧
    (run [sample_deposit 1, sample_deposit 2] sample_fresh).incoming_buffers
      = [sample_buffer 1, sample_buffer 2] ∧
    (submit { token := 7 } sample_size 0 5
        (run [sample_deposit 1, sample_deposit 2] sample_fresh)).state.incoming_buffers
      = [sample_buffer 2] ∧
    invocations (submit { token := 7 } sample_size 0 5
        (run [sample_deposit 1, sample_deposit 2] sample_fresh)).effects = [{ token := 7 }] :=
  have hreach : Reachable (run [sample_deposit 1, sample_deposit 2] sample_fresh) :=
    ⟨3, sample_buffer 0, sample_size, 0, [sample_deposit 1, sample_deposit 2], rfl⟩
  have h := submit_adopts_queued_front (run [sample_deposit 1, sample_deposit 2] sample_fresh)
    { token := 7 } sample_size 0 5 (sample_buffer 1) [sample_buffer 2] hreach rfl rfl
  ⟨hreach, rfl, rfl, h.2.2.1, h.2.2.2.1⟩

/-- C6: in every connected state whose arrival queue is empty, `submit(done, ...)`
does not invoke `done`, stores it as the pending callback, arms the next-buffer
wait handle, which is the handle returned and is pending, and leaves the
depository with its adopted current buffer untouched. -/
theorem submit_waits_on_empty_queue (s : ExchangeSemantics) (done : Callback) (sz : Size)
    (pf : MirPixelFormat) (stream_id : Int)
    (hconn : s.server_connection_lost = false) (hq : s.incoming_buffers = []) :
    invocations (submit done sz pf stream_id s).effects = [] ∧
    (submit done sz pf stream_id s).state.on_incoming_buffer = some done ∧
    (submit done sz pf stream_id s).result = Except.ok HandleName.next_buffer ∧
    (submit done sz pf stream_id s).state.next_buffer_wait_handle
      = s.next_buffer_wait_handle.expect_result ∧
    (submit done sz pf stream_id s).state.next_buffer_wait_handle.is_pending = true ∧
    Effect.expect_result HandleName.next_buffer ∈ (submit done sz pf stream_id s).effects ∧
    (submit done sz pf stream_id s).state.wrapped = s.wrapped ∧
    adoptions (submit done sz pf stream_id s).effects = [] := by
  simp [submit, submit_request, submit_complete, hconn, hq, invocations, adoptions,
    MirWaitHandle.expect_result, MirWaitHandle.is_pending]

/-- C6 at a concrete state: submit on a fresh strategy stores callback 7 and
returns a pending handle. -/
theorem submit_waits_on_empty_queue_witness :
    sample_fresh.server_connection_lost = false ∧ sample_fresh.incoming_buffers = [] ∧
    (submit { token := 7 } sample_size 0 5 sample_fresh).state.on_incoming_buffer
      = some { token := 7 } ∧
    (submit { token := 7 } sample_size 0 5 sample_fresh).state.next_buffer_wait_handle.is_pending
      = true :=
  have h := submit_waits_on_empty_queue sample_fresh { token := 7 } sample_size 0 5 rfl rfl
  ⟨rfl, rfl, h.2.1, h.2.2.2.2.1⟩

/-- C7: in every connected state a `submit` call sends exactly one
`submit_buffer` request; it is the first effect of the call, so it precedes any
adoption of a queued buffer, and it carries the given stream id together with
the id of the buffer that was adopted as current when the call was entered. -/
theorem submit_issues_one_request_first (s : ExchangeSemantics) (done : Callback) (sz : Size)
    (pf : MirPixelFormat) (stream_id : Int) (hconn : s.server_connection_lost = false) :
    requests (submit done sz pf stream_id s).effects
      = [{ id := stream_id, buffer_id := s.wrapped.current_buffer_id }] ∧
    ∃ later : List Effect,
      (submit done sz pf stream_id s).effects
        = Effect.submit_buffer { id := stream_id, buffer_id := s.wrapped.current_buffer_id }
            :: later ∧
      requests later = [] ∧
      adoptions later = adoptions (submit done sz pf stream_id s).effects := by
  cases hq : s.incoming_buffers with
  | nil =>
    refine ⟨?_, [Effect.expect_result HandleName.next_buffer], ?_, ?_, ?_⟩ <;>
      simp [submit, submit_request, submit_complete, hconn, hq, requests, adoptions]
  | cons front rest =>
    refine ⟨?_, [Effect.deposit_package front.buffer_id, Effect.callback_invoked done],
      ?_, ?_, ?_⟩ <;>
      simp [submit, submit_request, submit_complete, hconn, hq, requests, adoptions]

/-- C7 at a concrete state: with buffer 1 queued on a fresh strategy, submit on
stream 5 sends one request naming buffer 0, the adopted one. -/
theorem submit_issues_one_request_first_witness :
    (run [sample_deposit 1] sample_fresh).server_connection_lost = false ∧
    requests (submit { token := 7 } sample_size 0 5 (run [sample_deposit 1] sample_fresh)).effects
      = [{ id := 5, buffer_id := 0 }] :=
  ⟨rfl, (submit_issues_one_request_first (run [sample_deposit 1] sample_fresh)
    { token := 7 } sample_size 0 5 rfl).1⟩

/-- C8, as stated, fails: after `lost_connection()` no callback is pending and
the queue is empty, yet a submit that follows the deposit of buffer 1 throws
and the adopted buffer stays buffer 0. -/
theorem submit_after_lost_connection_adopts_nothing :
    (run [Call.lost_connection] sample_fresh).on_incoming_buffer = none ∧
    (run [Call.lost_connection] sample_fresh).incoming_buffers = [] ∧
    (run (deposit_calls [(sample_buffer 1, sample_size, 0)] ++
          submit_calls [({ token := 7 }, sample_size, 0, 5)])
        (run [Call.lost_connection] sample_fresh)).wrapped.current_buffer_id = 0 ∧
    (run (deposit_calls [(sample_buffer 1, sample_size, 0)] ++
          submit_calls [({ token := 7 }, sample_size, 0, 5)])
        (run [Call.lost_connection] sample_fresh)).wrapped.current_buffer_id
      ≠ (sample_buffer 1).buffer_id := by
  refine ⟨rfl, rfl, rfl, ?_⟩
  intro h
  have h2 : (0 : Nat) = 1 := h
  exact absurd h2 (by decide)

/-- C8, amended: on a connected strategy with no callback pending and an empty
queue, after buffers b1..bn are deposited in that order, the submit that
follows k earlier submits (k < n) adopts the buffer deposited at position k+1,
with the size and format that submit was given. -/
theorem submits_adopt_in_arrival_order (s : ExchangeSemantics)
    (arrivals : List (Buffer × Size × MirPixelFormat))
    (earlier : List (Callback × Size × MirPixelFormat × Int))
    (done : Callback) (sz : Size) (pf : MirPixelFormat) (stream_id : Int)
    (hcb : s.on_incoming_buffer = none) (hq : s.incoming_buffers = [])
    (hconn : s.server_connection_lost = false) (hk : earlier.length < arrivals.length) :
    (run (deposit_calls arrivals ++ submit_calls earlier ++ [Call.submit done sz pf stream_id])
        s).wrapped.current
      = some { package := populate_buffer_package arrivals[earlier.length].1,
               id := arrivals[earlier.length].1.buffer_id, size := sz, pf := pf } := by
  have hdep := run_deposit_calls arrivals s hcb
  have hqueue : (run (deposit_calls arrivals) s).incoming_buffers
      = arrivals.map (fun a => a.1) := by
    rw [hdep]
    simp [hq]
  have hconn1 : (run (deposit_calls arrivals) s).server_connection_lost = false := by
    rw [hdep]
    exact hconn
  have hsub := run_submit_calls earlier (run (deposit_calls arrivals) s) hconn1
    (by rw [hqueue]; simp; exact Nat.le_of_lt hk)
  have hk2 : earlier.length < (arrivals.map (fun a => a.1)).length := by
    simpa using hk
  have hfront : (run (submit_calls earlier) (run (deposit_calls arrivals) s)).incoming_buffers
      = arrivals[earlier.length].1
          :: (arrivals.map (fun a => a.1)).drop (earlier.length + 1) := by
    rw [hsub.2, hqueue, List.drop_eq_getElem_cons hk2]
    simp
  rw [run_append, run_append]
  exact submit_front_current _ done sz pf stream_id _ _ hsub.1 hfront

/-- C8, amended, at a concrete history: after buffers 1, 2, 3 arrive on a fresh
strategy, the second submit adopts buffer 2. -/
theorem submits_adopt_in_arrival_order_witness :
    sample_fresh.on_incoming_buffer = none ∧ sample_fresh.incoming_buffers = [] ∧
    sample_fresh.server_connection_lost = false ∧
    (run (deposit_calls [(sample_buffer 1, sample_size, 0), (sample_buffer 2, sample_size, 0),
            (sample_buffer 3, sample_size, 0)] ++
          submit_calls [({ token := 7 }, sample_size, 0, 5)] ++
          [Call.submit { token := 8 } sample_size 0 5])
        sample_fresh).wrapped.current
      = some { package := populate_buffer_package (sample_buffer 2), id := 2,
               size := sample_size, pf := 0 } :=
  ⟨rfl, rfl, rfl,
    submits_adopt_in_arrival_order sample_fresh
      [(sample_buffer 1, sample_size, 0), (sample_buffer 2, sample_size, 0),
        (sample_buffer 3, sample_size, 0)]
      [({ token := 7 }, sample_size, 0, 5)] { token := 8 } sample_size 0 5 rfl rfl rfl
      (by decide)⟩

/-! ## The Ping-Pong strategy: connection loss -/

/-- C9: when a submit is in flight (a callback is pending and the next-buffer
wait handle is armed), `lost_connection()` invokes that callback exactly once
within the call, resolves the wait handle, clears the pending callback and
adopts nothing: depository and arrival queue stay as they were. -/
theorem lost_connection_unblocks_waiter (s : ExchangeSemantics) (cb : Callback)
    (hpending : s.on_incoming_buffer = some cb)
    (harmed : s.next_buffer_wait_handle.is_pending = true) :
    invocations (lost_connection s).effects = [cb] ∧
    (lost_connection s).effects
      = [Effect.callback_invoked cb, Effect.result_received HandleName.next_buffer] ∧
    (lost_connection s).state.next_buffer_wait_handle = MirWaitHandle.resolved ∧
    (lost_connection s).state.next_buffer_wait_handle.is_pending = false ∧
    (lost_connection s).state.on_incoming_buffer = none ∧
    adoptions (lost_connection s).effects = [] ∧
    (lost_connection s).state.wrapped = s.wrapped ∧
    (lost_connection s).state.incoming_buffers = s.incoming_buffers ∧
    (lost_connection s).state.server_connection_lost = true := by
  have hexp : s.next_buffer_wait_handle = MirWaitHandle.expecting := by
    cases hh : s.next_buffer_wait_handle <;> simp [hh, MirWaitHandle.is_pending] at harmed
    rfl
  simp [lost_connection, hpending, hexp, invocations, adoptions,
    MirWaitHandle.result_received, MirWaitHandle.is_pending]

/-- C9 at a concrete state: a fresh strategy with one submit in flight fires
callback 7 on connection loss and keeps buffer 0 adopted. -/
theorem lost_connection_unblocks_waiter_witness :
    (run [sample_submit 7] sample_fresh).on_incoming_buffer = some { token := 7 } ∧
    (run [sample_submit 7] sample_fresh).next_buffer_wait_handle.is_pending = true ∧
    invocations (lost_connection (run [sample_submit 7] sample_fresh)).effects
      = [{ token := 7 }] ∧
    (lost_connection (run [sample_submit 7] sample_fresh)).state.wrapped
      = (run [sample_submit 7] sample_fresh).wrapped :=
  have h := lost_connection_unblocks_waiter (run [sample_submit 7] sample_fresh)
    { token := 7 } rfl rfl
  ⟨rfl, rfl, h.1, h.2.2.2.2.2.2.1⟩

/-- C10: in every state a fresh strategy reaches by a sequence of calls that
contains `lost_connection()`, every submit throws the runtime error
"disconnected: no new buffers", performs no effect at all (no request, no
callback invocation, no arming of the handle) and leaves the whole state, with
stored callback, queue and adopted buffer, as it was. -/
theorem submit_after_lost_connection_fails (max_buffers : Nat) (first_buffer : Buffer)
    (first_size : Size) (first_pf : MirPixelFormat) (before after : List Call)
    (done : Callback) (sz : Size) (pf : MirPixelFormat) (stream_id : Int) :
    (submit done sz pf stream_id
        (run (before ++ Call.lost_connection :: after)
          (create max_buffers first_buffer first_size first_pf))).result
      = Except.error (Exception.runtime_error "disconnected: no new buffers") ∧
    (submit done sz pf stream_id
        (run (before ++ Call.lost_connection :: after)
          (create max_buffers first_buffer first_size first_pf))).effects = [] ∧
    (submit done sz pf stream_id
        (run (before ++ Call.lost_connection :: after)
          (create max_buffers first_buffer first_size first_pf))).state
      = run (before ++ Call.lost_connection :: after)
          (create max_buffers first_buffer first_size first_pf) := by
  have hlost : (run (before ++ Call.lost_connection :: after)
      (create max_buffers first_buffer first_size first_pf)).server_connection_lost = true := by
    rw [run_append, run_cons]
    exact run_keeps_lost after _ (lost_connection_sets_lost _)
  simp [submit, submit_request, hlost]

/-! ## The Ping-Pong strategy: completion of requests -/

theorem invocations_append (l₁ l₂ : List Effect) :
    invocations (l₁ ++ l₂) = invocations l₁ ++ invocations l₂ := by
  simp [invocations, List.filterMap_append]

theorem trace_append (l₁ l₂ : List Call) (s : ExchangeSemantics) :
    trace (l₁ ++ l₂) s = trace l₁ s ++ trace l₂ (run l₁ s) := by
  induction l₁ generalizing s with
  | nil => simp [trace, run]
  | cons c rest ih =>
    show (c.perform s).1 ++ trace (rest ++ l₂) (c.perform s).2
      = ((c.perform s).1 ++ trace rest (c.perform s).2) ++ trace l₂ (run rest (c.perform s).2)
    rw [ih, List.append_assoc]

/-- One call made while the one-request discipline holds keeps the books: the
callback stored before plus the one taken on equal the ones invoked plus the
one stored after. -/
theorem perform_accounts (c : Call) (s : ExchangeSemantics)
    (h : c.is_submit = true → s.on_incoming_buffer = none) :
    s.on_incoming_buffer.toList ++ c.accepts s
      = invocations (c.perform s).1 ++ (c.perform s).2.on_incoming_buffer.toList := by
  cases c with
  | submit done sz pf stream_id =>
    have hnone := h rfl
    cases hl : s.server_connection_lost with
    | true =>
      simp [Call.accepts, Call.perform, submit, submit_request, hl, hnone, invocations]
    | false =>
      cases hq : s.incoming_buffers with
      | nil =>
        simp [Call.accepts, Call.perform, submit, submit_request, submit_complete, hl, hq,
          hnone, invocations]
      | cons front rest =>
        simp [Call.accepts, Call.perform, submit, submit_request, submit_complete, hl, hq,
          hnone, invocations]
  | deposit buffer size pf =>
    cases hcb : s.on_incoming_buffer with
    | none => simp [Call.accepts, Call.perform, deposit, hcb, invocations]
    | some cb => simp [Call.accepts, Call.perform, deposit, hcb, invocations]
  | lost_connection =>
    cases hcb : s.on_incoming_buffer <;>
      cases hh : s.next_buffer_wait_handle <;>
        simp [Call.accepts, Call.perform, lost_connection, hcb, hh, invocations,
          MirWaitHandle.is_pending]
  | set_buffer_cache_size sz =>
    simp [Call.accepts, Call.perform, set_buffer_cache_size, invocations]

theorem run_accounts (calls : List Call) (s : ExchangeSemantics)
    (h : one_request_at_a_time calls s = true) :
    s.on_incoming_buffer.toList ++ accepted calls s
      = invocations (trace calls s) ++ (run calls s).on_incoming_buffer.toList := by
  induction calls generalizing s with
  | nil => simp [accepted, trace, run, invocations]
  | cons c rest ih =>
    simp only [one_request_at_a_time, Bool.and_eq_true, Bool.or_eq_true,
      Bool.not_eq_true_eq_eq_false] at h
    have hstep := perform_accounts c s (by
      intro hsub
      rcases h.1 with hno | hnone
      · simp [hsub] at hno
      · simpa using hnone)
    have hrest := ih (c.perform s).2 h.2
    simp only [accepted, trace, run_cons, invocations_append]
    rw [← List.append_assoc, hstep, List.append_assoc, hrest, List.append_assoc]

/-- An answer, a deposit or a connection loss, leaves no callback stored. -/
theorem answer_clears_pending (s : ExchangeSemantics) :
    (∀ (b : Buffer) (size : Size) (pf : MirPixelFormat),
      ((Call.deposit b size pf).perform s).2.on_incoming_buffer = none) ∧
    (Call.lost_connection.perform s).2.on_incoming_buffer = none := by
  constructor
  · intro b size pf
    cases hcb : s.on_incoming_buffer <;> simp [Call.perform, deposit, hcb]
  · cases hcb : s.on_incoming_buffer <;>
      cases hh : s.next_buffer_wait_handle <;>
        simp [Call.perform, lost_connection, hcb, hh, MirWaitHandle.is_pending]

/-- C11, as stated, fails: on a fresh strategy two submits in a row both return
and so take on callbacks 7 and 8, yet after a deposit and a connection loss
have answered, callback 8 alone has been invoked: callback 7 was overwritten in
`on_incoming_buffer` and is never called. -/
theorem second_submit_drops_first_callback :
    accepted [sample_submit 7, sample_submit 8, sample_deposit 1, Call.lost_connection]
        sample_fresh = [{ token := 7 }, { token := 8 }] ∧
    invocations (trace [sample_submit 7, sample_submit 8, sample_deposit 1,
        Call.lost_connection] sample_fresh) = [{ token := 8 }] ∧
    (run [sample_submit 7, sample_submit 8, sample_deposit 1, Call.lost_connection]
        sample_fresh).on_incoming_buffer = none := by
  refine ⟨rfl, rfl, rfl⟩

/-- C11, amended: for every sequence of calls on a fresh strategy in which no
submit is made while a callback is still stored, the callbacks taken on by
returning submits are, in order and each exactly once, the callbacks invoked so
far followed by the one still stored; and once a further deposit or
`lost_connection` has answered, the callbacks invoked are exactly the ones
taken on. -/
theorem accepted_callbacks_invoked_once (max_buffers : Nat) (first_buffer : Buffer)
    (first_size : Size) (first_pf : MirPixelFormat) (calls : List Call)
    (hone : one_request_at_a_time calls
      (create max_buffers first_buffer first_size first_pf) = true) :
    accepted calls (create max_buffers first_buffer first_size first_pf)
      = invocations (trace calls (create max_buffers first_buffer first_size first_pf)) ++
        (run calls
          (create max_buffers first_buffer first_size first_pf)).on_incoming_buffer.toList ∧
    (∀ (b : Buffer) (size : Size) (pf : MirPixelFormat),
      invocations (trace (calls ++ [Call.deposit b size pf])
          (create max_buffers first_buffer first_size first_pf))
        = accepted calls (create max_buffers first_buffer first_size first_pf)) ∧
    invocations (trace (calls ++ [Call.lost_connection])
        (create max_buffers first_buffer first_size first_pf))
      = accepted calls (create max_buffers first_buffer first_size first_pf) := by
  have hacc : accepted calls (create max_buffers first_buffer first_size first_pf)
      = invocations (trace calls (create max_buffers first_buffer first_size first_pf)) ++
        (run calls
          (create max_buffers first_buffer first_size first_pf)).on_incoming_buffer.toList :=
    run_accounts calls _ hone
  have hdep : ∀ (b : Buffer) (size : Size) (pf : MirPixelFormat),
      invocations ((Call.deposit b size pf).perform
          (run calls (create max_buffers first_buffer first_size first_pf))).1
        = (run calls
            (create max_buffers first_buffer first_size first_pf)).on_incoming_buffer.toList := by
    intro b size pf
    have h := perform_accounts (Call.deposit b size pf)
      (run calls (create max_buffers first_buffer first_size first_pf)) (by intro hs; cases hs)
    rw [(answer_clears_pending _).1 b size pf] at h
    simpa [Call.accepts] using h.symm
  have hlost : invocations (Call.lost_connection.perform
          (run calls (create max_buffers first_buffer first_size first_pf))).1
        = (run calls
            (create max_buffers first_buffer first_size first_pf)).on_incoming_buffer.toList := by
    have h := perform_accounts Call.lost_connection
      (run calls (create max_buffers first_buffer first_size first_pf)) (by intro hs; cases hs)
    rw [(answer_clears_pending _).2] at h
    simpa [Call.accepts] using h.symm
  refine ⟨hacc, ?_, ?_⟩
  · intro b size pf
    rw [trace_append, invocations_append, hacc]
    simp only [trace, List.append_nil]
    rw [hdep b size pf]
  · rw [trace_append, invocations_append, hacc]
    simp only [trace, List.append_nil]
    rw [hlost]

/-- C11, amended, at a concrete history: submit, deposit, submit, connection
loss on a fresh strategy invokes callbacks 7 and 8 once each. -/
theorem accepted_callbacks_invoked_once_witness :
    one_request_at_a_time [sample_submit 7, sample_deposit 1, sample_submit 8]
        (create 3 (sample_buffer 0) sample_size 0) = true ∧
    invocations (trace ([sample_submit 7, sample_deposit 1, sample_submit 8] ++
        [Call.lost_connection]) (create 3 (sample_buffer 0) sample_size 0))
      = accepted [sample_submit 7, sample_deposit 1, sample_submit 8]
          (create 3 (sample_buffer 0) sample_size 0) :=
  ⟨rfl, (accepted_callbacks_invoked_once 3 (sample_buffer 0) sample_size 0
    [sample_submit 7, sample_deposit 1, sample_submit 8] rfl).2.2⟩

/-! ## The Vault strategy -/

/-- A Vault `submit` with a cached current buffer `c` and a pool that can hand
out `next`: what it does and the state it leaves. -/
theorem vault_submit_cached (s : NewBufferSemantics) (done : Callback) (sz : Size)
    (pf : MirPixelFormat) (stream_id : Int) (c next : ClientBuffer) (rest : List ClientBuffer)
    (hcur : s.current.buffer = some c) (hpool : s.vault.available = next :: rest) :
    (NewBufferSemantics.submit done sz pf stream_id s).effects
      = [Effect.vault_deposit c.id, Effect.expect_result HandleName.next_buffer,
         Effect.wire_transfer_outbound c.id, Effect.result_received HandleName.next_buffer,
         Effect.vault_withdraw next.id, Effect.callback_invoked done] ∧
    (NewBufferSemantics.submit done sz pf stream_id s).result
      = Completion.returned HandleName.next_buffer ∧
    (NewBufferSemantics.submit done sz pf stream_id s).state.current
      = { buffer := some next, id := next.id } ∧
    (NewBufferSemantics.submit done sz pf stream_id s).state.vault.available = rest ∧
    (NewBufferSemantics.submit done sz pf stream_id s).state.next_buffer_wait_handle
      = MirWaitHandle.resolved := by
  simp [NewBufferSemantics.submit, NewBufferSemantics.ensure_current,
    NewBufferSemantics.submit_post, NewBufferSemantics.submit_finish,
    NewBufferSemantics.advance_current_buffer, Progress.andThen, Progress.done,
    BufferVault.withdraw, BufferVault.deposit, BufferVault.wire_transfer_outbound,
    MirWaitHandle.expect_result, MirWaitHandle.result_received, hcur, hpool]

/-- A Vault `submit` with nothing cached first withdraws `c` and then goes on as
the submit of the state that has `c` cached. -/
theorem vault_submit_uncached (s : NewBufferSemantics) (done : Callback) (sz : Size)
    (pf : MirPixelFormat) (stream_id : Int) (c : ClientBuffer) (rest : List ClientBuffer)
    (hcur : s.current.buffer = none) (hpool : s.vault.available = c :: rest) :
    (NewBufferSemantics.submit done sz pf stream_id s).effects
      = Effect.vault_withdraw c.id ::
        (NewBufferSemantics.submit done sz pf stream_id
          { s with vault := { s.vault with available := rest },
                   current := { buffer := some c, id := c.id } }).effects ∧
    (NewBufferSemantics.submit done sz pf stream_id s).result
      = (NewBufferSemantics.submit done sz pf stream_id
          { s with vault := { s.vault with available := rest },
                   current := { buffer := some c, id := c.id } }).result ∧
    (NewBufferSemantics.submit done sz pf stream_id s).state
      = (NewBufferSemantics.submit done sz pf stream_id
          { s with vault := { s.vault with available := rest },
                   current := { buffer := some c, id := c.id } }).state := by
  simp [NewBufferSemantics.submit, NewBufferSemantics.ensure_current,
    NewBufferSemantics.advance_current_buffer, Progress.andThen, Progress.done,
    BufferVault.withdraw, hcur, hpool]

/-- C12: a Vault `submit(done, ...)` whose withdraws are served (the pool can hand
out `next`, and `c` too when nothing is cached) performs, in this order: the
withdraw of `c` if none is cached, the pool deposit of `c`, the outbound
transfer of that same `c` between arming and resolving the next-buffer handle,
one withdraw whose buffer becomes the cached current one, and one call of
`done`; it returns the next-buffer handle, which is not pending. -/
theorem vault_submit_sequence (s : NewBufferSemantics) (done : Callback) (sz : Size)
    (pf : MirPixelFormat) (stream_id : Int) (c next : ClientBuffer) (rest : List ClientBuffer)
    (hserved : (s.current.buffer = some c ∧ s.vault.available = next :: rest) ∨
      (s.current.buffer = none ∧ s.vault.available = c :: next :: rest)) :
    (NewBufferSemantics.submit done sz pf stream_id s).effects
      = (if s.current.buffer.isNone then [Effect.vault_withdraw c.id] else []) ++
        [Effect.vault_deposit c.id, Effect.expect_result HandleName.next_buffer,
         Effect.wire_transfer_outbound c.id, Effect.result_received HandleName.next_buffer,
         Effect.vault_withdraw next.id, Effect.callback_invoked done] ∧
    invocations (NewBufferSemantics.submit done sz pf stream_id s).effects = [done] ∧
    (NewBufferSemantics.submit done sz pf stream_id s).result
      = Completion.returned HandleName.next_buffer ∧
    (NewBufferSemantics.submit done sz pf stream_id s).state.current
      = { buffer := some next, id := next.id } ∧
    (NewBufferSemantics.submit done sz pf stream_id s).state.next_buffer_wait_handle.is_pending
      = false := by
  rcases hserved with ⟨hcur, hpool⟩ | ⟨hcur, hpool⟩
  · obtain ⟨heff, hres, hcur2, _, hh⟩ :=
      vault_submit_cached s done sz pf stream_id c next rest hcur hpool
    refine ⟨?_, ?_, hres, hcur2, ?_⟩
    · rw [heff]; simp [hcur]
    · rw [heff]; simp [invocations]
    · rw [hh]; rfl
  · obtain ⟨heff0, hres0, hst0⟩ :=
      vault_submit_uncached s done sz pf stream_id c (next :: rest) hcur hpool
    obtain ⟨heff, hres, hcur2, _, hh⟩ :=
      vault_submit_cached
        { s with vault := { s.vault with available := next :: rest },
                 current := { buffer := some c, id := c.id } }
        done sz pf stream_id c next rest rfl rfl
    refine ⟨?_, ?_, ?_, ?_, ?_⟩
    · rw [heff0, heff]; simp [hcur]
    · rw [heff0, heff]; simp [invocations]
    · rw [hres0, hres]
    · rw [hst0, hcur2]
    · rw [hst0, hh]; rfl

/-- C12 at a concrete state: with nothing cached and buffers 1, 2, 3 in the
pool, submit withdraws 1, posts and sends 1, withdraws 2 and calls callback 7. -/
theorem vault_submit_sequence_witness :
    (((sample_vault 3).current.buffer = some (sample_client_buffer 1) ∧
        (sample_vault 3).vault.available
          = sample_client_buffer 2 :: [sample_client_buffer 3]) ∨
      ((sample_vault 3).current.buffer = none ∧
        (sample_vault 3).vault.available
          = sample_client_buffer 1 :: sample_client_buffer 2 :: [sample_client_buffer 3])) ∧
    invocations (NewBufferSemantics.submit { token := 7 } sample_size 0 5
      (sample_vault 3)).effects = [{ token := 7 }] :=
  ⟨Or.inr ⟨rfl, rfl⟩,
    (vault_submit_sequence (sample_vault 3) { token := 7 } sample_size 0 5
      (sample_client_buffer 1) (sample_client_buffer 2) [sample_client_buffer 3]
      (Or.inr ⟨rfl, rfl⟩)).2.1⟩

/-- What a Vault `set_scale` does, in program order. -/
theorem vault_set_scale_effects (s : NewBufferSemantics) (scale : Int) (stream_id : Int) :
    (NewBufferSemantics.set_scale scale stream_id s).effects
      = [Effect.expect_result HandleName.scale, Effect.result_received HandleName.scale,
         Effect.vault_set_scale scale] := rfl

/-- C13, as stated, fails: on a Vault strategy `set_scale(2, 5)` sends no
`configure_buffer_stream` request at all and hands back the scale handle
already resolved, the resolution coming before the scale is even forwarded. -/
theorem vault_set_scale_sends_nothing :
    (∀ configuration : StreamConfiguration,
      Effect.configure_buffer_stream configuration
        ∉ (NewBufferSemantics.set_scale 2 5 (sample_vault 3)).effects) ∧
    (NewBufferSemantics.set_scale 2 5 (sample_vault 3)).effects
      = [Effect.expect_result HandleName.scale, Effect.result_received HandleName.scale,
         Effect.vault_set_scale 2] ∧
    (NewBufferSemantics.set_scale 2 5 (sample_vault 3)).state.scale_wait_handle
      = MirWaitHandle.resolved := by
  refine ⟨?_, rfl, rfl⟩
  intro configuration hmem
  rw [vault_set_scale_effects] at hmem
  simp at hmem

/-- C13, amended: a Vault `set_scale(scale, stream_id)` arms and at once resolves
the scale wait handle, then forwards the scale to the pool manager; it sends no
request to the server and the handle it returns is not pending.  The Ping-Pong
`set_scale` is the one that arms the handle, sends `configure_buffer_stream`
with the stream id and the scale, and leaves the handle pending until
`on_scale_set` resolves it and stores the scale. -/
theorem set_scale_per_strategy (v : NewBufferSemantics) (x : ExchangeSemantics) (scale : Int)
    (stream_id : Int) :
    ((NewBufferSemantics.set_scale scale stream_id v).effects
        = [Effect.expect_result HandleName.scale, Effect.result_received HandleName.scale,
           Effect.vault_set_scale scale] ∧
      (NewBufferSemantics.set_scale scale stream_id v).result
        = Completion.returned HandleName.scale ∧
      (NewBufferSemantics.set_scale scale stream_id v).state.scale_wait_handle.is_pending
        = false ∧
      (NewBufferSemantics.set_scale scale stream_id v).state.vault.scale = some scale) ∧
    ((ExchangeSemantics.set_scale scale stream_id x).effects
        = [Effect.expect_result HandleName.scale,
           Effect.configure_buffer_stream
             { id := stream_id, scale := some scale, swapinterval := none }] ∧
      (ExchangeSemantics.set_scale scale stream_id x).result = Except.ok HandleName.scale ∧
      (ExchangeSemantics.set_scale scale stream_id x).state.scale_wait_handle.is_pending
        = true ∧
      (on_scale_set scale
          (ExchangeSemantics.set_scale scale stream_id x).state).state.scale_wait_handle.is_pending
        = false ∧
      (on_scale_set scale (ExchangeSemantics.set_scale scale stream_id x).state).state.scale_
        = some scale) := by
  refine ⟨⟨rfl, rfl, rfl, rfl⟩, ⟨rfl, rfl, rfl, rfl, rfl⟩⟩

/-- What `process_buffer` does with a buffer that carries an error marker: the
cached size is written when the buffer has both dimensions, then the marker is
thrown. -/
theorem process_buffer_error (buffer : Buffer) (st : BufferStream) (marker : String)
    (herr : buffer.error = some marker) :
    BufferStream.process_buffer buffer st
      = { effects := []
          result := Completion.thrown
            (Exception.runtime_error ("BufferStream received buffer with error:" ++ marker))
          state :=
            if (buffer.has_width && buffer.has_height) = true then
              { st with
                cached_buffer_size := { width := buffer.width, height := buffer.height } }
            else st } := by
  simp [BufferStream.process_buffer, Buffer.has_error, Buffer.error_text, herr]

/-! ## The buffer stream: construction and incoming buffers -/

/-- C15: for every creation answer that carries no stream id or carries an
error, the constructor throws a runtime error whose message is
"Can not create buffer stream: " followed by the error text, before any
strategy is built (no stream results, nothing is done); when the answer has
neither id nor error the text is the one that names the missing id. -/
theorem create_refuses_bad_answer (client_buffer_cache_size : Nat) (mode : BufferStreamMode)
    (answer : BufferStreamMessage) (ideal_size : Size) (nbuffers : Nat)
    (fault : Option PlatformFault)
    (hbad : answer.id = none ∨ answer.error.isSome = true) :
    BufferStream.create client_buffer_cache_size mode answer ideal_size nbuffers fault
      = ([], Except.error (Exception.runtime_error
          ("Can not create buffer stream: " ++
            (match answer.error with
              | some text => text
              | none =>
                "Error processing buffer stream create response, no ID (disconnected?)")))) := by
  cases herr : answer.error with
  | some text =>
    simp [BufferStream.create, BufferStreamMessage.has_error, BufferStreamMessage.has_id,
      BufferStreamMessage.error_text, herr]
  | none =>
    have hid : answer.id = none := by
      rcases hbad with h | h
      · exact h
      · simp [herr] at h
    simp [BufferStream.create, BufferStreamMessage.has_error, BufferStreamMessage.has_id,
      BufferStreamMessage.error_text, BufferStream.no_id_error, herr, hid]

/-- C15 at a concrete answer: the sample answer stripped of its id is refused
with the message that names the missing id, while the sample answer itself
yields the sample stream. -/
theorem create_refuses_bad_answer_witness :
    (({ sample_answer with id := none } : BufferStreamMessage).id = none ∨
      ({ sample_answer with id := none } : BufferStreamMessage).error.isSome = true) ∧
    BufferStream.create 3 BufferStreamMode.Producer { sample_answer with id := none }
        sample_size 3 none
      = ([], Except.error (Exception.runtime_error
          ("Can not create buffer stream: " ++
            "Error processing buffer stream create response, no ID (disconnected?)"))) ∧
    BufferStream.create 3 BufferStreamMode.Producer sample_answer sample_size 3 none
      = ([], Except.ok sample_stream) :=
  ⟨Or.inl rfl,
    create_refuses_bad_answer 3 BufferStreamMode.Producer { sample_answer with id := none }
      sample_size 3 none (Or.inl rfl),
    rfl⟩

/-- C16: for every stream state and every buffer that carries an error marker,
`buffer_available(buffer)` throws a runtime error that quotes the marker and
makes no call on the strategy: no effect occurs, the strategy is left as it
was, and `current_buffer()` and `current_buffer_id()` therefore answer after
the call what they answered before it. -/
theorem buffer_available_rejects_error_buffer (st : BufferStream) (buffer : Buffer)
    (marker : String) (herr : buffer.error = some marker) :
    (BufferStream.buffer_available buffer st).result
      = Completion.thrown
          (Exception.runtime_error ("BufferStream received buffer with error:" ++ marker)) ∧
    (BufferStream.buffer_available buffer st).effects = [] ∧
    (BufferStream.buffer_available buffer st).state.buffer_depository = st.buffer_depository ∧
    (BufferStream.get_current_buffer (BufferStream.buffer_available buffer st).state).result
      = (BufferStream.get_current_buffer st).result ∧
    (BufferStream.get_current_buffer_id (BufferStream.buffer_available buffer st).state).result
      = (BufferStream.get_current_buffer_id st).result := by
  have hcall := process_buffer_error buffer st marker herr
  have hdep : (BufferStream.buffer_available buffer st).state.buffer_depository
      = st.buffer_depository := by
    show (BufferStream.process_buffer buffer st).state.buffer_depository = st.buffer_depository
    rw [hcall]
    show (if (buffer.has_width && buffer.has_height) = true then _ else st).buffer_depository = _
    split <;> rfl
  refine ⟨?_, ?_, hdep, ?_, ?_⟩
  · show (BufferStream.process_buffer buffer st).result = _
    rw [hcall]
  · show (BufferStream.process_buffer buffer st).effects = _
    rw [hcall]
  · simp only [BufferStream.get_current_buffer, Progress.lift, hdep]
  · simp only [BufferStream.get_current_buffer_id, Progress.lift, hdep]

/-- C16 at a concrete state: the sample stream refuses the sample error buffer
and still reports buffer 0. -/
theorem buffer_available_rejects_error_buffer_witness :
    sample_error_buffer.error = some "lost" ∧
    (BufferStream.buffer_available sample_error_buffer sample_stream).result
      = Completion.thrown
          (Exception.runtime_error ("BufferStream received buffer with error:" ++ "lost")) ∧
    (BufferStream.get_current_buffer_id
        (BufferStream.buffer_available sample_error_buffer sample_stream).state).result
      = Completion.returned 0 :=
  have h := buffer_available_rejects_error_buffer sample_stream sample_error_buffer "lost" rfl
  ⟨rfl, h.1, h.2.2.2.2.trans rfl⟩

/-! ## The buffer stream: the secured region -/

/-- C17: `release_cpu_region()` twice in a row leaves the stream as one call
does: after the first call no region is held, and the second call changes
nothing and has no effect. -/
theorem release_cpu_region_twice (st : BufferStream) :
    (BufferStream.release_cpu_region (BufferStream.release_cpu_region st).state).state
      = (BufferStream.release_cpu_region st).state ∧
    (BufferStream.release_cpu_region st).state.secured_region = none ∧
    (BufferStream.release_cpu_region (BufferStream.release_cpu_region st).state).effects = [] ∧
    (BufferStream.release_cpu_region (BufferStream.release_cpu_region st).state).result
      = Completion.returned () := by
  refine ⟨rfl, rfl, rfl, rfl⟩

/-- The strategy calls a stream makes outside `next_buffer` never lose the
current buffer of the strategy: a Vault that has one cached keeps one cached. -/
theorem strategy_calls_keep_current (d : ServerBufferSemantics)
    (hat : d.current_at_hand = true) :
    (∀ (buffer : Buffer) (size : Size) (pf : MirPixelFormat),
      (d.deposit buffer size pf).state.current_at_hand = true) ∧
    (∀ sz : Nat, (d.set_buffer_cache_size sz).state.current_at_hand = true) ∧
    d.current_buffer.state.current_at_hand = true ∧
    d.current_buffer_id.state.current_at_hand = true ∧
    d.lost_connection.state.current_at_hand = true ∧
    (∀ size : Size, (d.set_size size).state.current_at_hand = true) ∧
    (∀ (scale : Int) (stream_id : Int),
      (d.set_scale scale stream_id).state.current_at_hand = true) := by
  cases d with
  | exchange x =>
    refine ⟨?_, ?_, ?_, ?_, ?_, ?_, ?_⟩ <;> intros <;> rfl
  | vault v =>
    have hcur : v.current.buffer.isSome = true := hat
    have hnot : v.current.buffer.isNone = false := by
      cases hb : v.current.buffer <;> simp [hb] at hcur ⊢
    refine ⟨?_, ?_, ?_, ?_, ?_, ?_, ?_⟩
    · intro buffer size pf; exact hcur
    · intro sz; exact hcur
    · simp [ServerBufferSemantics.current_buffer, NewBufferSemantics.current_buffer,
        NewBufferSemantics.ensure_current, Progress.lift, Progress.andThen, Progress.done,
        ServerBufferSemantics.current_at_hand, hnot, hcur]
    · simp [ServerBufferSemantics.current_buffer_id, NewBufferSemantics.current_buffer_id,
        NewBufferSemantics.ensure_current, Progress.lift, Progress.andThen, Progress.done,
        ServerBufferSemantics.current_at_hand, hnot, hcur]
    · exact hcur
    · intro size; exact hcur
    · intro scale stream_id; exact hcur

/-- A part of the state that the second half of a sequence never changes is,
after the sequence, what the first half left. -/
theorem andThen_state {σ α β γ : Type} (p : Progress σ α) (f : α → σ → Progress σ β)
    (g : σ → γ) (hf : ∀ a s, g (f a s).state = g s) :
    g (p.andThen f).state = g p.state := by
  unfold Progress.andThen
  cases h : p.result with
  | returned a => exact hf a p.state
  | thrown e => rfl
  | blocked => rfl
  | undefined => rfl

/-- Whatever the `deposit` of the strategy did, `process_buffer` ends in the
state that call left. -/
theorem process_buffer_state (buffer : Buffer) (st : BufferStream)
    (he : buffer.has_error = false) :
    (BufferStream.process_buffer buffer st).state
      = BufferStream.with_depository
          (if (buffer.has_width && buffer.has_height) = true then
            { st with
              cached_buffer_size := { width := buffer.width, height := buffer.height } }
          else st)
          (st.buffer_depository.deposit buffer
            { width := buffer.width, height := buffer.height }
            st.protobuf_bs.pixel_format).state := by
  by_cases hwh : (buffer.has_width && buffer.has_height) = true
  · simp only [BufferStream.process_buffer, he, hwh, ↓reduceIte, Bool.false_eq_true]
    try (split <;> rfl)
  · simp only [BufferStream.process_buffer, he, hwh, ↓reduceIte, Bool.false_eq_true]
    try (split <;> rfl)

/-- The state `process_buffer` leaves: the secured region is the one it found,
and a strategy that had its current buffer at hand still has it. -/
theorem process_buffer_keeps (buffer : Buffer) (st : BufferStream) :
    (BufferStream.process_buffer buffer st).state.secured_region = st.secured_region ∧
    (st.buffer_depository.current_at_hand = true →
      (BufferStream.process_buffer buffer st).state.buffer_depository.current_at_hand = true) := by
  have hdims : (if (buffer.has_width && buffer.has_height) = true then
        { st with cached_buffer_size := { width := buffer.width, height := buffer.height } }
      else st).secured_region = st.secured_region ∧
      (if (buffer.has_width && buffer.has_height) = true then
        { st with cached_buffer_size := { width := buffer.width, height := buffer.height } }
      else st).buffer_depository = st.buffer_depository := by
    split <;> exact ⟨rfl, rfl⟩
  cases he : buffer.has_error with
  | true =>
    cases hm : buffer.error with
    | none => simp [Buffer.has_error, hm] at he
    | some marker =>
      rw [process_buffer_error buffer st marker hm]
      exact ⟨hdims.1, fun hat => by rw [hdims.2]; exact hat⟩
  | false =>
    rw [process_buffer_state buffer st he]
    refine ⟨hdims.1, fun hat => ?_⟩
    exact (strategy_calls_keep_current _ hat).1 buffer _ _

/-- A call other than `release_cpu_region` and `next_buffer`, made while a
region is held and the strategy has its current buffer at hand, leaves both
so. -/
theorem perform_keeps_held_region (c : StreamCall) (st : BufferStream) (r : MemoryRegion)
    (hreg : st.secured_region = some r)
    (hat : st.buffer_depository.current_at_hand = true)
    (hc : c.keeps_region = true) :
    (c.perform st).secured_region = some r ∧
    (c.perform st).buffer_depository.current_at_hand = true := by
  obtain ⟨_, hcache, hbuf, hid, hlost, hsize, hscale⟩ :=
    strategy_calls_keep_current st.buffer_depository hat
  cases c with
  | next_buffer done => simp [StreamCall.keeps_region] at hc
  | release_cpu_region => simp [StreamCall.keeps_region] at hc
  | get_current_buffer => exact ⟨hreg, hbuf⟩
  | get_current_buffer_id => exact ⟨hreg, hid⟩
  | secure_for_cpu_write =>
    have hst : (BufferStream.secure_for_cpu_write st).state
        = st.with_depository st.buffer_depository.current_buffer.state := by
      unfold BufferStream.secure_for_cpu_write Progress.andThen
      cases hres : (st.buffer_depository.current_buffer.lift st.with_depository).result <;>
        simp [Progress.lift, BufferStream.with_depository, hreg, Progress.done]
    show (BufferStream.secure_for_cpu_write st).state.secured_region = some r ∧
      (BufferStream.secure_for_cpu_write st).state.buffer_depository.current_at_hand = true
    rw [hst]
    exact ⟨hreg, hbuf⟩
  | screencast_buffer_received reply done =>
    have hp := process_buffer_keeps reply
      { st with protobuf_bs := { st.protobuf_bs with buffer := some reply } }
    have hst : (BufferStream.screencast_buffer_received reply done st).state.secured_region
          = (BufferStream.process_buffer reply
              { st with protobuf_bs := { st.protobuf_bs with buffer := some reply } }
            ).state.secured_region ∧
        (BufferStream.screencast_buffer_received reply done st).state.buffer_depository
          = (BufferStream.process_buffer reply
              { st with protobuf_bs := { st.protobuf_bs with buffer := some reply } }
            ).state.buffer_depository := by
      unfold BufferStream.screencast_buffer_received
      exact ⟨andThen_state _ _ BufferStream.secured_region (fun _ _ => rfl),
        andThen_state _ _ BufferStream.buffer_depository (fun _ _ => rfl)⟩
    show (BufferStream.screencast_buffer_received reply done st).state.secured_region = some r ∧
      (BufferStream.screencast_buffer_received reply done st).state.buffer_depository.current_at_hand
        = true
    rw [hst.1, hst.2]
    exact ⟨hp.1.trans hreg, hp.2 hat⟩
  | on_swap_interval_set interval => exact ⟨hreg, hat⟩
  | set_swap_interval interval =>
    simp only [StreamCall.perform, BufferStream.set_swap_interval]
    split
    · exact ⟨hreg, hat⟩
    · exact ⟨hreg, hat⟩
  | set_buffer_cache_size cache_size => exact ⟨hreg, hcache cache_size⟩
  | buffer_available buffer =>
    have hp := process_buffer_keeps buffer st
    exact ⟨hp.1.trans hreg, hp.2 hat⟩
  | buffer_unavailable => exact ⟨hreg, hlost⟩
  | set_size sz => exact ⟨hreg, hsize sz⟩
  | set_scale scale => exact ⟨hreg, hscale scale _⟩

theorem run_stream_keeps_held_region (calls : List StreamCall) (st : BufferStream)
    (r : MemoryRegion) (hreg : st.secured_region = some r)
    (hat : st.buffer_depository.current_at_hand = true)
    (hcalls : ∀ c ∈ calls, c.keeps_region = true) :
    (run_stream calls st).secured_region = some r ∧
    (run_stream calls st).buffer_depository.current_at_hand = true := by
  induction calls generalizing st with
  | nil => exact ⟨hreg, hat⟩
  | cons c rest ih =>
    obtain ⟨h1, h2⟩ := perform_keeps_held_region c st r hreg hat
      (hcalls c (List.mem_cons_self c rest))
    exact ih (c.perform st) h1 h2 (fun c2 hc2 => hcalls c2 (List.mem_cons_of_mem c hc2))

/-- With a region held and the current buffer at hand, `secure_for_cpu_write`
returns the held region and asks for nothing. -/
theorem secure_returns_held_region (st : BufferStream) (r : MemoryRegion)
    (hreg : st.secured_region = some r)
    (hat : st.buffer_depository.current_at_hand = true) :
    (BufferStream.secure_for_cpu_write st).result = Completion.returned r ∧
    (BufferStream.secure_for_cpu_write st).effects = [] := by
  cases hd : st.buffer_depository with
  | exchange x =>
    simp [BufferStream.secure_for_cpu_write, ServerBufferSemantics.current_buffer,
      ExchangeSemantics.current_buffer, Outcome.progress, Progress.lift, Progress.andThen,
      Progress.done, BufferStream.with_depository, hd, hreg]
  | vault v =>
    have hcur : v.current.buffer.isSome = true := by
      rw [hd] at hat
      exact hat
    have hnot : v.current.buffer.isNone = false := by
      cases hb : v.current.buffer <;> simp [hb] at hcur ⊢
    simp [BufferStream.secure_for_cpu_write, ServerBufferSemantics.current_buffer,
      NewBufferSemantics.current_buffer, NewBufferSemantics.ensure_current, Progress.lift,
      Progress.andThen, Progress.done, BufferStream.with_depository, hd, hreg, hnot]

/-- A `secure_for_cpu_write` that returns leaves its region held and the current
buffer of the strategy at hand. -/
theorem secure_returned_state (st : BufferStream) (r : MemoryRegion)
    (hret : (BufferStream.secure_for_cpu_write st).result = Completion.returned r) :
    (BufferStream.secure_for_cpu_write st).state.secured_region = some r ∧
    (BufferStream.secure_for_cpu_write st).state.buffer_depository.current_at_hand = true := by
  cases hd : st.buffer_depository with
  | exchange x =>
    cases hreg : st.secured_region with
    | some held =>
      simp [BufferStream.secure_for_cpu_write, ServerBufferSemantics.current_buffer,
        ExchangeSemantics.current_buffer, Outcome.progress, Progress.lift, Progress.andThen,
        Progress.done, BufferStream.with_depository, hd, hreg] at hret ⊢
      exact ⟨hret, rfl⟩
    | none =>
      cases hb : x.wrapped.current_buffer with
      | none =>
        simp [BufferStream.secure_for_cpu_write, ServerBufferSemantics.current_buffer,
          ExchangeSemantics.current_buffer, Outcome.progress, Progress.lift, Progress.andThen,
          Progress.done, BufferStream.with_depository, hd, hreg, hb] at hret
      | some b =>
        simp [BufferStream.secure_for_cpu_write, ServerBufferSemantics.current_buffer,
          ExchangeSemantics.current_buffer, Outcome.progress, Progress.lift, Progress.andThen,
          Progress.done, BufferStream.with_depository, hd, hreg, hb] at hret ⊢
        exact ⟨hret, rfl⟩
  | vault v =>
    cases hb : v.current.buffer with
    | some c =>
      cases hreg : st.secured_region with
      | some held =>
        simp [BufferStream.secure_for_cpu_write, ServerBufferSemantics.current_buffer,
          NewBufferSemantics.current_buffer, NewBufferSemantics.ensure_current, Progress.lift,
          Progress.andThen, Progress.done, BufferStream.with_depository,
          ServerBufferSemantics.current_at_hand, hd, hreg, hb] at hret ⊢
        exact hret
      | none =>
        simp [BufferStream.secure_for_cpu_write, ServerBufferSemantics.current_buffer,
          NewBufferSemantics.current_buffer, NewBufferSemantics.ensure_current, Progress.lift,
          Progress.andThen, Progress.done, BufferStream.with_depository,
          ServerBufferSemantics.current_at_hand, hd, hreg, hb] at hret ⊢
        exact hret
    | none =>
      cases hpool : v.vault.available with
      | nil =>
        simp [BufferStream.secure_for_cpu_write, ServerBufferSemantics.current_buffer,
          NewBufferSemantics.current_buffer, NewBufferSemantics.ensure_current,
          NewBufferSemantics.advance_current_buffer, BufferVault.withdraw, Progress.lift,
          Progress.andThen, Progress.done, BufferStream.with_depository, hd, hb, hpool] at hret
      | cons c rest =>
        cases hreg : st.secured_region with
        | some held =>
          simp [BufferStream.secure_for_cpu_write, ServerBufferSemantics.current_buffer,
            NewBufferSemantics.current_buffer, NewBufferSemantics.ensure_current,
            NewBufferSemantics.advance_current_buffer, BufferVault.withdraw, Progress.lift,
            Progress.andThen, Progress.done, BufferStream.with_depository,
            ServerBufferSemantics.current_at_hand, hd, hreg, hb, hpool] at hret ⊢
          exact hret
        | none =>
          simp [BufferStream.secure_for_cpu_write, ServerBufferSemantics.current_buffer,
            NewBufferSemantics.current_buffer, NewBufferSemantics.ensure_current,
            NewBufferSemantics.advance_current_buffer, BufferVault.withdraw, Progress.lift,
            Progress.andThen, Progress.done, BufferStream.with_depository,
            ServerBufferSemantics.current_at_hand, hd, hreg, hb, hpool] at hret ⊢
          exact hret

/-- A sequence whose first half returned is that half followed by the second. -/
theorem andThen_returned {σ α β : Type} (p : Progress σ α) (f : α → σ → Progress σ β) (a : α)
    (h : p.result = Completion.returned a) :
    (p.andThen f).effects = p.effects ++ (f a p.state).effects ∧
    (p.andThen f).result = (f a p.state).result ∧
    (p.andThen f).state = (f a p.state).state := by
  unfold Progress.andThen
  rw [h]
  exact ⟨rfl, rfl, rfl⟩

/-- C18: once a `secure_for_cpu_write()` has returned a region, a second call
made after any calls other than `release_cpu_region()` and `next_buffer()`
returns that same region and does nothing, so it asks no buffer for a new
mapping; the region stays the one held in between. -/
theorem secure_twice_same_region (st : BufferStream) (r : MemoryRegion)
    (between : List StreamCall)
    (hfirst : (BufferStream.secure_for_cpu_write st).result = Completion.returned r)
    (hbetween : ∀ c ∈ between, c.keeps_region = true) :
    (BufferStream.secure_for_cpu_write
        (run_stream between (BufferStream.secure_for_cpu_write st).state)).result
      = Completion.returned r ∧
    (BufferStream.secure_for_cpu_write
        (run_stream between (BufferStream.secure_for_cpu_write st).state)).effects = [] ∧
    (run_stream between (BufferStream.secure_for_cpu_write st).state).secured_region
      = some r := by
  obtain ⟨hreg, hat⟩ := secure_returned_state st r hfirst
  obtain ⟨hreg2, hat2⟩ := run_stream_keeps_held_region between _ r hreg hat hbetween
  obtain ⟨hres, heff⟩ := secure_returns_held_region _ r hreg2 hat2
  exact ⟨hres, heff, hreg2⟩

/-- C18 at a concrete history: the sample stream maps buffer 0, and after a
buffer has arrived and the id has been read the second call returns that same
mapping without a new request to the buffer. -/
theorem secure_twice_same_region_witness :
    (BufferStream.secure_for_cpu_write sample_stream).result
      = Completion.returned (sample_client_buffer 0).secure_for_cpu_write ∧
    (∀ c ∈ [StreamCall.buffer_available (sample_buffer 1), StreamCall.get_current_buffer_id],
      c.keeps_region = true) ∧
    (BufferStream.secure_for_cpu_write
        (run_stream [StreamCall.buffer_available (sample_buffer 1),
            StreamCall.get_current_buffer_id]
          (BufferStream.secure_for_cpu_write sample_stream).state)).result
      = Completion.returned (sample_client_buffer 0).secure_for_cpu_write ∧
    (BufferStream.secure_for_cpu_write
        (run_stream [StreamCall.buffer_available (sample_buffer 1),
            StreamCall.get_current_buffer_id]
          (BufferStream.secure_for_cpu_write sample_stream).state)).effects = [] :=
  have hkeep : ∀ c ∈ [StreamCall.buffer_available (sample_buffer 1),
      StreamCall.get_current_buffer_id], c.keeps_region = true := by
    intro c hc
    simp only [List.mem_cons, List.mem_singleton, List.not_mem_nil, or_false] at hc
    rcases hc with rfl | rfl <;> rfl
  have h := secure_twice_same_region sample_stream (sample_client_buffer 0).secure_for_cpu_write
    [StreamCall.buffer_available (sample_buffer 1), StreamCall.get_current_buffer_id] rfl hkeep
  ⟨rfl, hkeep, h.1, h.2.1⟩

/-- C19, as stated, fails: on the sample stream, after `next_buffer` left a
request pending, a `secure_for_cpu_write()` mapped buffer 0 and the arrival of
buffer 1 made buffer 1 current, `secure_for_cpu_write()` still returns the
mapping over buffer 0 while `current_buffer()` returns buffer 1. -/
theorem secure_returns_stale_region :
    (BufferStream.secure_for_cpu_write
        (run_stream [StreamCall.next_buffer { token := 7 }, StreamCall.secure_for_cpu_write,
          StreamCall.buffer_available (sample_buffer 1)] sample_stream)).result
      = Completion.returned (sample_client_buffer 0).secure_for_cpu_write ∧
    (BufferStream.get_current_buffer
        (run_stream [StreamCall.next_buffer { token := 7 }, StreamCall.secure_for_cpu_write,
          StreamCall.buffer_available (sample_buffer 1)] sample_stream)).result
      = Completion.returned (some (sample_client_buffer 1)) ∧
    (sample_client_buffer 0).secure_for_cpu_write.buffer ≠ sample_client_buffer 1 := by
  refine ⟨rfl, rfl, ?_⟩
  intro h
  have hid : (sample_client_buffer 0).secure_for_cpu_write.buffer.id
      = (sample_client_buffer 1).id := by rw [h]
  exact absurd hid (by decide)

/-- The constructor builds a stream that holds no secured region. -/
theorem create_holds_no_region (client_buffer_cache_size : Nat) (mode : BufferStreamMode)
    (answer : BufferStreamMessage) (ideal_size : Size) (nbuffers : Nat)
    (fault : Option PlatformFault) (st0 : BufferStream)
    (hcreate : (BufferStream.create client_buffer_cache_size mode answer ideal_size nbuffers
      fault).2 = Except.ok st0) :
    st0.secured_region = none := by
  cases fault with
  | some f =>
    cases f <;>
      (unfold BufferStream.create at hcreate
       simp only [] at hcreate
       split_ifs at hcreate)
  | none =>
    unfold BufferStream.create at hcreate
    simp only [] at hcreate
    split_ifs at hcreate <;> first
      | (simp at hcreate; done)
      | (have h : _ = st0 := Except.ok.inj hcreate
         rw [← h])

/-- A history with one more call at its end. -/
theorem run_stream_concat (calls : List StreamCall) (c : StreamCall) (st : BufferStream) :
    run_stream (calls ++ [c]) st = c.perform (run_stream calls st) := by
  simp [run_stream, List.foldl_append]

/-- What `secure_for_cpu_write` does once its `current_buffer()` has returned a
buffer b: with no region held it maps b and holds that mapping; with a region
held it returns that region and asks the buffer for nothing. -/
theorem secure_with_current_buffer (st : BufferStream) (b : ClientBuffer)
    (hcur : (BufferStream.get_current_buffer st).result = Completion.returned (some b)) :
    (st.secured_region = none →
      (BufferStream.secure_for_cpu_write st).result
        = Completion.returned b.secure_for_cpu_write ∧
      (BufferStream.secure_for_cpu_write st).effects
        = (BufferStream.get_current_buffer st).effects ++ [Effect.secure_for_cpu_write b.id] ∧
      (BufferStream.secure_for_cpu_write st).state.secured_region
        = some b.secure_for_cpu_write) ∧
    (∀ held, st.secured_region = some held →
      (BufferStream.secure_for_cpu_write st).result = Completion.returned held ∧
      (BufferStream.secure_for_cpu_write st).effects
        = (BufferStream.get_current_buffer st).effects ∧
      (BufferStream.secure_for_cpu_write st).state.secured_region = some held) := by
  obtain ⟨heff, hres, hst⟩ := andThen_returned
    (st.buffer_depository.current_buffer.lift st.with_depository)
    (fun buffer st1 =>
      match st1.secured_region with
      | some region => Progress.done region st1
      | none =>
        match buffer with
        | none => { effects := [], result := Completion.undefined, state := st1 }
        | some b =>
          { effects := [Effect.secure_for_cpu_write b.id]
            result := Completion.returned b.secure_for_cpu_write
            state := { st1 with secured_region := some b.secure_for_cpu_write } })
    (some b) hcur
  have hreg : (st.buffer_depository.current_buffer.lift st.with_depository).state.secured_region
      = st.secured_region := rfl
  have heff2 : (BufferStream.secure_for_cpu_write st).effects
      = (BufferStream.get_current_buffer st).effects ++ _ := heff
  have hres2 : (BufferStream.secure_for_cpu_write st).result = _ := hres
  have hst2 : (BufferStream.secure_for_cpu_write st).state = _ := hst
  rw [heff2, hres2, hst2]
  constructor
  · intro hnone
    rw [hnone] at hreg
    simp [hreg]
  · intro held hheld
    rw [hheld] at hreg
    simp [hreg, Progress.done]

/-- The region a stream holds after `secure_for_cpu_write`: the one it held
before, or, when it held none and `current_buffer()` returned a buffer, the
mapping over that buffer. -/
theorem secure_region_cases (st : BufferStream) :
    (BufferStream.secure_for_cpu_write st).state.secured_region = st.secured_region ∨
    (st.secured_region = none ∧
      ∃ b0, (BufferStream.get_current_buffer st).result = Completion.returned (some b0) ∧
        (BufferStream.secure_for_cpu_write st).state.secured_region
          = some b0.secure_for_cpu_write) := by
  cases hres : (BufferStream.get_current_buffer st).result with
  | returned ob =>
    cases ob with
    | some b0 =>
      obtain ⟨hnew, hold⟩ := secure_with_current_buffer st b0 hres
      cases hreg : st.secured_region with
      | none => exact Or.inr ⟨rfl, b0, rfl, (hnew hreg).2.2⟩
      | some held => exact Or.inl (hold held hreg).2.2
    | none =>
      left
      obtain ⟨_, _, hst⟩ := andThen_returned
        (st.buffer_depository.current_buffer.lift st.with_depository)
        (fun buffer st1 =>
          match st1.secured_region with
          | some region => Progress.done region st1
          | none =>
            match buffer with
            | none => { effects := [], result := Completion.undefined, state := st1 }
            | some b =>
              { effects := [Effect.secure_for_cpu_write b.id]
                result := Completion.returned b.secure_for_cpu_write
                state := { st1 with secured_region := some b.secure_for_cpu_write } })
        none hres
      have hst2 : (BufferStream.secure_for_cpu_write st).state = _ := hst
      have hreg : (st.buffer_depository.current_buffer.lift
          st.with_depository).state.secured_region = st.secured_region := rfl
      rw [hst2]
      cases hheld : st.secured_region with
      | none =>
        rw [hheld] at hreg
        simp [hreg]
      | some held =>
        rw [hheld] at hreg
        simp [hreg, Progress.done]
  | thrown e =>
    left
    have hres2 : (st.buffer_depository.current_buffer.lift st.with_depository).result
        = Completion.thrown e := hres
    unfold BufferStream.secure_for_cpu_write Progress.andThen
    rw [hres2]
    rfl
  | blocked =>
    left
    have hres2 : (st.buffer_depository.current_buffer.lift st.with_depository).result
        = Completion.blocked := hres
    unfold BufferStream.secure_for_cpu_write Progress.andThen
    rw [hres2]
    rfl
  | undefined =>
    left
    have hres2 : (st.buffer_depository.current_buffer.lift st.with_depository).result
        = Completion.undefined := hres
    unfold BufferStream.secure_for_cpu_write Progress.andThen
    rw [hres2]
    rfl

/-- The second part of `next_buffer` never touches the secured region. -/
theorem next_buffer_dispatch_keeps_region (done : Callback) (st : BufferStream) :
    (BufferStream.next_buffer_dispatch done st).state.secured_region = st.secured_region := by
  unfold BufferStream.next_buffer_dispatch
  cases st.mode <;> rfl

/-- How the strategy answers `current_buffer_id`: it returns an id, unless it is
a Vault with nothing cached and an empty pool, which waits having done
nothing. -/
theorem current_buffer_id_returns_or_pool_empty (d : ServerBufferSemantics) :
    (∃ id, d.current_buffer_id.result = Completion.returned id) ∨
    (∃ v, d = ServerBufferSemantics.vault v ∧ v.current.buffer = none ∧
      v.vault.available = [] ∧
      d.current_buffer_id.result = Completion.blocked ∧ d.current_buffer_id.effects = [] ∧
      d.current_buffer_id.state = d) := by
  cases d with
  | exchange x =>
    left
    cases hq : x.incoming_buffers with
    | nil =>
      exact ⟨x.wrapped.current_buffer_id, by
        simp [ServerBufferSemantics.current_buffer_id, ExchangeSemantics.current_buffer_id,
          Outcome.progress, Progress.lift, hq]⟩
    | cons front rest =>
      exact ⟨front.buffer_id, by
        simp [ServerBufferSemantics.current_buffer_id, ExchangeSemantics.current_buffer_id,
          Outcome.progress, Progress.lift, hq]⟩
  | vault v =>
    cases hb : v.current.buffer with
    | some c =>
      left
      exact ⟨v.current.id, by
        simp [ServerBufferSemantics.current_buffer_id, NewBufferSemantics.current_buffer_id,
          NewBufferSemantics.ensure_current, Progress.lift, Progress.andThen, Progress.done, hb]⟩
    | none =>
      cases hpool : v.vault.available with
      | nil =>
        right
        refine ⟨v, rfl, hb, hpool, ?_⟩
        simp [ServerBufferSemantics.current_buffer_id, NewBufferSemantics.current_buffer_id,
          NewBufferSemantics.ensure_current, NewBufferSemantics.advance_current_buffer,
          BufferVault.withdraw, Progress.lift, Progress.andThen, Progress.done, hb, hpool]
      | cons c rest =>
        left
        exact ⟨c.id, by
          simp [ServerBufferSemantics.current_buffer_id, NewBufferSemantics.current_buffer_id,
            NewBufferSemantics.ensure_current, NewBufferSemantics.advance_current_buffer,
            BufferVault.withdraw, Progress.lift, Progress.andThen, Progress.done, hb, hpool]⟩

/-- A Vault that waits for its pool is served by the next buffer the server
delivers: after the `deposit` of a buffer, `current_buffer_id` returns the id
of that buffer. -/
theorem deposit_serves_empty_pool (v : NewBufferSemantics) (hb : v.current.buffer = none)
    (hpool : v.vault.available = []) (buffer : Buffer) (size : Size) (pf : MirPixelFormat) :
    ((ServerBufferSemantics.vault v).deposit buffer size pf).result = Completion.returned () ∧
    ((ServerBufferSemantics.vault v).deposit buffer size pf).state.current_buffer_id.result
      = Completion.returned buffer.buffer_id := by
  simp [ServerBufferSemantics.deposit, NewBufferSemantics.deposit,
    ServerBufferSemantics.current_buffer_id, NewBufferSemantics.current_buffer_id,
    NewBufferSemantics.ensure_current, NewBufferSemantics.advance_current_buffer,
    BufferVault.withdraw, BufferVault.wire_transfer_inbound, Progress.lift, Progress.andThen,
    Progress.done, hb, hpool]

/-- The first part of `next_buffer` once `current_buffer_id()` has returned: the
frame of that id is closed and the region is dropped. -/
theorem next_buffer_begin_returned (st : BufferStream) (id : Nat)
    (hid : st.buffer_depository.current_buffer_id.result = Completion.returned id) :
    (BufferStream.next_buffer_begin st).effects
      = st.buffer_depository.current_buffer_id.effects ++ [Effect.end_frame id] ∧
    (BufferStream.next_buffer_begin st).result = Completion.returned () ∧
    (BufferStream.next_buffer_begin st).state
      = { st with
          buffer_depository := st.buffer_depository.current_buffer_id.state
          secured_region := none } :=
  andThen_returned
    (st.buffer_depository.current_buffer_id.lift st.with_depository)
    (fun id st1 =>
      ({ effects := [Effect.end_frame id]
         result := Completion.returned ()
         state := { st1 with secured_region := none } } : Progress BufferStream Unit))
    id hid

/-- A `next_buffer` whose first part returned is that part followed by the
second, which starts in the state the first part left. -/
theorem next_buffer_after_begin (st : BufferStream) (done : Callback)
    (hbegin : (BufferStream.next_buffer_begin st).result = Completion.returned ()) :
    (BufferStream.next_buffer done st).effects
      = (BufferStream.next_buffer_begin st).effects ++
        (BufferStream.next_buffer_dispatch done (BufferStream.next_buffer_begin st).state).effects ∧
    (BufferStream.next_buffer done st).result
      = (BufferStream.next_buffer_dispatch done (BufferStream.next_buffer_begin st).state).result ∧
    (BufferStream.next_buffer done st).state
      = (BufferStream.next_buffer_dispatch done (BufferStream.next_buffer_begin st).state).state :=
  andThen_returned (BufferStream.next_buffer_begin st)
    (fun _ st1 => BufferStream.next_buffer_dispatch done st1) () hbegin

/-- A `next_buffer` whose `current_buffer_id()` waits has done nothing. -/
theorem next_buffer_waits (st : BufferStream) (done : Callback)
    (hb : st.buffer_depository.current_buffer_id.result = Completion.blocked)
    (he : st.buffer_depository.current_buffer_id.effects = [])
    (hs : st.buffer_depository.current_buffer_id.state = st.buffer_depository) :
    BufferStream.next_buffer done st
      = { effects := [], result := Completion.blocked, state := st } := by
  have hb2 : (st.buffer_depository.current_buffer_id.lift st.with_depository).result
      = Completion.blocked := hb
  have hbegin : BufferStream.next_buffer_begin st
      = { effects := [], result := Completion.blocked, state := st } := by
    unfold BufferStream.next_buffer_begin Progress.andThen
    rw [hb2]
    simp [Progress.lift, he, hs, BufferStream.with_depository]
  unfold BufferStream.next_buffer
  rw [hbegin]
  rfl

/-- The region a stream holds after `next_buffer`: none, or, when the call
waits in `current_buffer_id()`, the one it held. -/
theorem next_buffer_region (st : BufferStream) (done : Callback) :
    (BufferStream.next_buffer done st).state.secured_region = none ∨
    (BufferStream.next_buffer done st).state.secured_region = st.secured_region := by
  rcases current_buffer_id_returns_or_pool_empty st.buffer_depository with
    ⟨id, hid⟩ | ⟨v, _, _, _, hb, he, hs⟩
  · left
    obtain ⟨_, hres, hst⟩ := next_buffer_begin_returned st id hid
    obtain ⟨_, _, hfin⟩ := next_buffer_after_begin st done hres
    rw [hfin, next_buffer_dispatch_keeps_region, hst]
  · right
    rw [next_buffer_waits st done hb he hs]

/-- A `next_buffer` whose `current_buffer_id()` returned leaves no region held. -/
theorem next_buffer_drops_region (st : BufferStream) (done : Callback) (id : Nat)
    (hid : st.buffer_depository.current_buffer_id.result = Completion.returned id) :
    (BufferStream.next_buffer done st).state.secured_region = none := by
  obtain ⟨_, hres, hst⟩ := next_buffer_begin_returned st id hid
  obtain ⟨_, _, hfin⟩ := next_buffer_after_begin st done hres
  rw [hfin, next_buffer_dispatch_keeps_region, hst]

/-- The strategy a stream has after `buffer_available` of a buffer without error
marker is the one the `deposit` of its strategy left. -/
theorem buffer_available_deposits (buffer : Buffer) (st : BufferStream)
    (herr : buffer.has_error = false) :
    (BufferStream.buffer_available buffer st).state.buffer_depository
      = (st.buffer_depository.deposit buffer { width := buffer.width, height := buffer.height }
          st.protobuf_bs.pixel_format).state := by
  show (BufferStream.process_buffer buffer st).state.buffer_depository = _
  rw [process_buffer_state buffer st herr]
  rfl

/-- The region a stream holds after one call: none, or the one it held, or, when
the call is a `secure_for_cpu_write()` made with no region held, the mapping
over the buffer `current_buffer()` returned to that call. -/
theorem perform_region_cases (c : StreamCall) (st : BufferStream) :
    (c.perform st).secured_region = none ∨
    (c.perform st).secured_region = st.secured_region ∨
    (c = StreamCall.secure_for_cpu_write ∧ st.secured_region = none ∧
      ∃ b0, (BufferStream.get_current_buffer st).result = Completion.returned (some b0) ∧
        (c.perform st).secured_region = some b0.secure_for_cpu_write) := by
  cases c with
  | next_buffer done =>
    rcases next_buffer_region st done with h | h
    · exact Or.inl h
    · exact Or.inr (Or.inl h)
  | release_cpu_region => exact Or.inl rfl
  | get_current_buffer => exact Or.inr (Or.inl rfl)
  | get_current_buffer_id => exact Or.inr (Or.inl rfl)
  | secure_for_cpu_write =>
    rcases secure_region_cases st with h | ⟨hnone, b0, hb0, h⟩
    · exact Or.inr (Or.inl h)
    · exact Or.inr (Or.inr ⟨rfl, hnone, b0, hb0, h⟩)
  | screencast_buffer_received reply done =>
    have hp := process_buffer_keeps reply
      { st with protobuf_bs := { st.protobuf_bs with buffer := some reply } }
    have hst : (BufferStream.screencast_buffer_received reply done st).state.secured_region
          = (BufferStream.process_buffer reply
              { st with protobuf_bs := { st.protobuf_bs with buffer := some reply } }
            ).state.secured_region := by
      unfold BufferStream.screencast_buffer_received
      exact andThen_state _ _ BufferStream.secured_region (fun _ _ => rfl)
    exact Or.inr (Or.inl (hst.trans hp.1))
  | on_swap_interval_set interval => exact Or.inr (Or.inl rfl)
  | set_swap_interval interval =>
    refine Or.inr (Or.inl ?_)
    simp only [StreamCall.perform, BufferStream.set_swap_interval]
    split <;> rfl
  | set_buffer_cache_size cache_size => exact Or.inr (Or.inl rfl)
  | buffer_available buffer => exact Or.inr (Or.inl (process_buffer_keeps buffer st).1)
  | buffer_unavailable => exact Or.inr (Or.inl rfl)
  | set_size sz => exact Or.inr (Or.inl rfl)
  | set_scale scale => exact Or.inr (Or.inl rfl)

/-- Where a held region comes from: a stream that started with no region holds,
after any history of calls, either no region or the mapping that a
`secure_for_cpu_write()` call of the history made, with no region held, over
the buffer `current_buffer()` returned to it, and that has been held since. -/
theorem held_region_origin (st0 : BufferStream) (hnew : st0.secured_region = none)
    (calls : List StreamCall) :
    (run_stream calls st0).secured_region = none ∨
    ∃ before after b0,
      calls = before ++ StreamCall.secure_for_cpu_write :: after ∧
      (run_stream before st0).secured_region = none ∧
      (BufferStream.get_current_buffer (run_stream before st0)).result
        = Completion.returned (some b0) ∧
      ∀ k, (run_stream (before ++ StreamCall.secure_for_cpu_write :: after.take k)
          st0).secured_region = some b0.secure_for_cpu_write := by
  induction calls using List.reverseRecOn with
  | nil => exact Or.inl hnew
  | append_singleton l c ih =>
    rw [run_stream_concat]
    rcases perform_region_cases c (run_stream l st0) with hn | hs | ⟨hc, hsn, b0, hb0, hreg⟩
    · exact Or.inl hn
    · rcases ih with hnone | ⟨before, after, b0, hcalls, hbn, hb0, hk⟩
      · exact Or.inl (hs.trans hnone)
      · right
        refine ⟨before, after ++ [c], b0, by rw [hcalls]; simp, hbn, hb0, fun k => ?_⟩
        by_cases hkl : k ≤ after.length
        · rw [List.take_append_of_le_length hkl]
          exact hk k
        · have htake : (after ++ [c]).take k = after ++ [c] :=
            List.take_of_length_le (by simp; omega)
          have hall : before ++ StreamCall.secure_for_cpu_write :: (after ++ [c]) = l ++ [c] := by
            rw [hcalls]; simp
          have hlast := hk after.length
          rw [List.take_length, ← hcalls] at hlast
          rw [htake, hall, run_stream_concat, hs]
          exact hlast
    · subst hc
      right
      refine ⟨l, [], b0, rfl, hsn, hb0, fun k => ?_⟩
      rw [List.take_nil, run_stream_concat]
      exact hreg

/-- C19, amended: in every state a stream built by the constructor reaches by a
history of calls and in which `current_buffer()` returns a buffer b,
`secure_for_cpu_write()` returns a region.  Either no region is held, and the
region is a new mapping over b, asked of b at this call; or a region is held,
and the region returned is that one, with nothing asked of any buffer: it is
the mapping an earlier `secure_for_cpu_write()` call of the history made,
with no region held, over the buffer b0 that `current_buffer()` returned to
that call, and it has been held ever since. -/
theorem secure_returns_held_or_current (client_buffer_cache_size : Nat)
    (mode : BufferStreamMode) (answer : BufferStreamMessage) (ideal_size : Size)
    (nbuffers : Nat) (fault : Option PlatformFault) (st0 : BufferStream)
    (calls : List StreamCall) (b : ClientBuffer)
    (hcreate : (BufferStream.create client_buffer_cache_size mode answer ideal_size nbuffers
      fault).2 = Except.ok st0)
    (hcur : (BufferStream.get_current_buffer (run_stream calls st0)).result
      = Completion.returned (some b)) :
    ((run_stream calls st0).secured_region = none ∧
      (BufferStream.secure_for_cpu_write (run_stream calls st0)).result
        = Completion.returned b.secure_for_cpu_write ∧
      (BufferStream.secure_for_cpu_write (run_stream calls st0)).effects
        = (BufferStream.get_current_buffer (run_stream calls st0)).effects ++
          [Effect.secure_for_cpu_write b.id] ∧
      b.secure_for_cpu_write.buffer = b) ∨
    (∃ before after b0,
      calls = before ++ StreamCall.secure_for_cpu_write :: after ∧
      (run_stream before st0).secured_region = none ∧
      (BufferStream.get_current_buffer (run_stream before st0)).result
        = Completion.returned (some b0) ∧
      (∀ k, (run_stream (before ++ StreamCall.secure_for_cpu_write :: after.take k)
          st0).secured_region = some b0.secure_for_cpu_write) ∧
      (run_stream calls st0).secured_region = some b0.secure_for_cpu_write ∧
      (BufferStream.secure_for_cpu_write (run_stream calls st0)).result
        = Completion.returned b0.secure_for_cpu_write ∧
      (BufferStream.secure_for_cpu_write (run_stream calls st0)).effects
        = (BufferStream.get_current_buffer (run_stream calls st0)).effects ∧
      b0.secure_for_cpu_write.buffer = b0) := by
  have hnew := create_holds_no_region client_buffer_cache_size mode answer ideal_size nbuffers
    fault st0 hcreate
  obtain ⟨hfresh, hheld⟩ := secure_with_current_buffer (run_stream calls st0) b hcur
  rcases held_region_origin st0 hnew calls with hnone | ⟨before, after, b0, hcalls, hbn, hb0, hk⟩
  · left
    exact ⟨hnone, (hfresh hnone).1, (hfresh hnone).2.1, rfl⟩
  · right
    have hlast := hk after.length
    rw [List.take_length, ← hcalls] at hlast
    exact ⟨before, after, b0, hcalls, hbn, hb0, hk, hlast, (hheld _ hlast).1,
      (hheld _ hlast).2.1, rfl⟩

/-- C19, amended, on the history of the counterexample: the sample stream is
what the constructor builds from the sample answer; after `next_buffer`, a
`secure_for_cpu_write()` and the arrival of buffer 1, `current_buffer()`
returns buffer 1 and a region is held, so the region returned is the one an
earlier `secure_for_cpu_write()` of the history made; it is the mapping over
buffer 0. -/
theorem secure_returns_held_or_current_witness :
    (BufferStream.create 3 BufferStreamMode.Producer sample_answer sample_size 3 none).2
      = Except.ok sample_stream ∧
    (BufferStream.get_current_buffer
        (run_stream [StreamCall.next_buffer { token := 7 }, StreamCall.secure_for_cpu_write,
          StreamCall.buffer_available (sample_buffer 1)] sample_stream)).result
      = Completion.returned (some (sample_client_buffer 1)) ∧
    (run_stream [StreamCall.next_buffer { token := 7 }, StreamCall.secure_for_cpu_write,
        StreamCall.buffer_available (sample_buffer 1)] sample_stream).secured_region
      = some (sample_client_buffer 0).secure_for_cpu_write ∧
    (∃ before after b0,
      [StreamCall.next_buffer { token := 7 }, StreamCall.secure_for_cpu_write,
          StreamCall.buffer_available (sample_buffer 1)]
        = before ++ StreamCall.secure_for_cpu_write :: after ∧
      (run_stream before sample_stream).secured_region = none ∧
      (BufferStream.get_current_buffer (run_stream before sample_stream)).result
        = Completion.returned (some b0) ∧
      (BufferStream.secure_for_cpu_write
          (run_stream [StreamCall.next_buffer { token := 7 }, StreamCall.secure_for_cpu_write,
            StreamCall.buffer_available (sample_buffer 1)] sample_stream)).result
        = Completion.returned b0.secure_for_cpu_write ∧
      b0 = sample_client_buffer 0) := by
  refine ⟨rfl, rfl, rfl, ?_⟩
  rcases secure_returns_held_or_current 3 BufferStreamMode.Producer sample_answer sample_size 3
      none sample_stream
      [StreamCall.next_buffer { token := 7 }, StreamCall.secure_for_cpu_write,
        StreamCall.buffer_available (sample_buffer 1)]
      (sample_client_buffer 1) rfl rfl with
    ⟨hnone, _⟩ | ⟨before, after, b0, hcalls, hbn, hb0, _, _, hres, _⟩
  · exact absurd hnone (by decide)
  · have hfixed : (BufferStream.secure_for_cpu_write
          (run_stream [StreamCall.next_buffer { token := 7 }, StreamCall.secure_for_cpu_write,
            StreamCall.buffer_available (sample_buffer 1)] sample_stream)).result
        = Completion.returned (sample_client_buffer 0).secure_for_cpu_write := rfl
    have hsame : b0.secure_for_cpu_write = (sample_client_buffer 0).secure_for_cpu_write :=
      Completion.returned.inj (hres.symm.trans hfixed)
    exact ⟨before, after, b0, hcalls, hbn, hb0, hres, congrArg MemoryRegion.buffer hsame⟩

/-- C20: in every stream state and in either mode, `next_buffer(done)` drops the
secured region before it hands on.  When the opening `current_buffer_id()`
returns an id, which every stream does but one whose Vault has nothing cached
and an empty pool, the first part closes the frame of that id and leaves the
state with the strategy as `current_buffer_id()` left it and no region held;
everything the second part does (in producer mode the `submit` of the
strategy, in screencast mode the screencast request) comes after and starts
from that state, and no region is held in the state the call leaves.  On a
stream whose Vault has nothing cached and an empty pool the call waits in
`current_buffer_id()`: it has neither called `submit` nor returned; the next
buffer the server delivers serves that `current_buffer_id()`, and `next_buffer`
on the stream that received it leaves no region held. -/
theorem next_buffer_releases_region (st : BufferStream) (done : Callback) :
    (∃ id, st.buffer_depository.current_buffer_id.result = Completion.returned id ∧
      (BufferStream.next_buffer_begin st).result = Completion.returned () ∧
      (BufferStream.next_buffer_begin st).effects
        = st.buffer_depository.current_buffer_id.effects ++ [Effect.end_frame id] ∧
      (BufferStream.next_buffer_begin st).state
        = { st with
            buffer_depository := st.buffer_depository.current_buffer_id.state
            secured_region := none } ∧
      (BufferStream.next_buffer_begin st).state.secured_region = none ∧
      (BufferStream.next_buffer done st).effects
        = (BufferStream.next_buffer_begin st).effects ++
          (BufferStream.next_buffer_dispatch done
            (BufferStream.next_buffer_begin st).state).effects ∧
      (BufferStream.next_buffer done st).result
        = (BufferStream.next_buffer_dispatch done
            (BufferStream.next_buffer_begin st).state).result ∧
      (BufferStream.next_buffer done st).state
        = (BufferStream.next_buffer_dispatch done
            (BufferStream.next_buffer_begin st).state).state ∧
      (BufferStream.next_buffer_dispatch done (BufferStream.next_buffer_begin st).state).effects
        = (match st.mode with
            | BufferStreamMode.Producer =>
              (st.buffer_depository.current_buffer_id.state.submit done
                st.cached_buffer_size st.protobuf_bs.pixel_format
                st.protobuf_bs.id_value).effects
            | BufferStreamMode.Consumer =>
              [Effect.expect_result HandleName.screencast,
               Effect.screencast_buffer st.protobuf_bs.id_value]) ∧
      (BufferStream.next_buffer done st).state.secured_region = none) ∨
    (∃ v, st.buffer_depository = ServerBufferSemantics.vault v ∧ v.current.buffer = none ∧
      v.vault.available = [] ∧
      (BufferStream.next_buffer done st).result = Completion.blocked ∧
      (BufferStream.next_buffer done st).effects = [] ∧
      (BufferStream.next_buffer done st).state = st ∧
      (∀ (buffer : Buffer) (size : Size) (pf : MirPixelFormat),
        (st.buffer_depository.deposit buffer size pf).state.current_buffer_id.result
          = Completion.returned buffer.buffer_id) ∧
      ∀ buffer : Buffer, buffer.has_error = false →
        (BufferStream.next_buffer done
          (BufferStream.buffer_available buffer st).state).state.secured_region = none) := by
  rcases current_buffer_id_returns_or_pool_empty st.buffer_depository with
    ⟨id, hid⟩ | ⟨v, hv, hcur, hpool, hb, he, hs⟩
  · left
    obtain ⟨heff, hres, hst⟩ := next_buffer_begin_returned st id hid
    obtain ⟨heff2, hres2, hst2⟩ := next_buffer_after_begin st done hres
    have hreg : (BufferStream.next_buffer_begin st).state.secured_region = none := by
      rw [hst]
    refine ⟨id, hid, hres, heff, hst, hreg, heff2, hres2, hst2, ?_, ?_⟩
    · rw [hst]
      unfold BufferStream.next_buffer_dispatch
      cases hm : st.mode <;> simp [BufferStream.with_depository, Progress.lift, hm]
    · rw [hst2, next_buffer_dispatch_keeps_region, hreg]
  · right
    have hcall := next_buffer_waits st done hb he hs
    refine ⟨v, hv, hcur, hpool, ?_, ?_, ?_, fun buffer size pf => ?_, fun buffer herr => ?_⟩
    · rw [hcall]
    · rw [hcall]
    · rw [hcall]
    · rw [hv]
      exact (deposit_serves_empty_pool v hcur hpool buffer size pf).2
    · apply next_buffer_drops_region _ done buffer.buffer_id
      rw [buffer_available_deposits buffer st herr, hv]
      exact (deposit_serves_empty_pool v hcur hpool buffer _ _).2

/-- C20 on concrete streams: the sample stream that holds the mapping over
buffer 0 holds no region after `next_buffer`, which returned the handle of the
strategy; the sample Vault stream, which is what the constructor builds from
an answer without a buffer, waits, and `next_buffer` after the arrival of
buffer 1 leaves no region held. -/
theorem next_buffer_releases_region_witness :
    (BufferStream.create 3 BufferStreamMode.Producer { sample_answer with buffer := none }
        sample_size 3 none).2 = Except.ok sample_vault_stream ∧
    (BufferStream.secure_for_cpu_write sample_stream).state.secured_region
      = some (sample_client_buffer 0).secure_for_cpu_write ∧
    (BufferStream.next_buffer { token := 7 }
        (BufferStream.secure_for_cpu_write sample_stream).state).state.secured_region = none ∧
    (BufferStream.next_buffer { token := 7 }
        (BufferStream.secure_for_cpu_write sample_stream).state).result
      = Completion.returned HandleName.next_buffer ∧
    (BufferStream.next_buffer { token := 7 } sample_vault_stream).result = Completion.blocked ∧
    (BufferStream.next_buffer { token := 7 }
        (BufferStream.buffer_available (sample_buffer 1)
          sample_vault_stream).state).state.secured_region = none := by
  refine ⟨rfl, rfl, ?_, rfl, ?_⟩
  · rcases next_buffer_releases_region (BufferStream.secure_for_cpu_write sample_stream).state
        { token := 7 } with
      ⟨id, _, _, _, _, _, _, _, _, _, hfin⟩ | ⟨v, hv, _⟩
    · exact hfin
    · have hv2 : ServerBufferSemantics.exchange sample_fresh = ServerBufferSemantics.vault v := hv
      cases hv2
  · rcases next_buffer_releases_region sample_vault_stream { token := 7 } with
      ⟨id, hid, _⟩ | ⟨v, _, _, _, hres, _, _, _, hserved⟩
    · have hid2 : (Completion.blocked : Completion Nat) = Completion.returned id := hid
      cases hid2
    · exact ⟨hres, hserved (sample_buffer 1) rfl⟩

/-! ## The buffer stream: modes and configuration -/

/-- C22: on every stream in screencast mode `set_swap_interval(interval)` throws
a logic error and does nothing else: no request is sent, the interval wait
handle is not armed, and the state, stored swap interval included, is as it
was. -/
theorem set_swap_interval_refused_on_screencast (st : BufferStream) (interval : Int)
    (hmode : st.mode = BufferStreamMode.Consumer) :
    (BufferStream.set_swap_interval interval st).result
      = Completion.thrown
          (Exception.logic_error "Attempt to set swap interval on screencast is invalid") ∧
    (BufferStream.set_swap_interval interval st).effects = [] ∧
    (BufferStream.set_swap_interval interval st).state = st ∧
    (BufferStream.set_swap_interval interval st).state.interval_wait_handle
      = st.interval_wait_handle ∧
    BufferStream.swap_interval (BufferStream.set_swap_interval interval st).state
      = BufferStream.swap_interval st := by
  simp [BufferStream.set_swap_interval, hmode]

/-- C22 at a concrete stream: the sample screencast stream refuses interval 0
and keeps its interval 1. -/
theorem set_swap_interval_refused_on_screencast_witness :
    sample_screencast.mode = BufferStreamMode.Consumer ∧
    (BufferStream.set_swap_interval 0 sample_screencast).effects = [] ∧
    BufferStream.swap_interval (BufferStream.set_swap_interval 0 sample_screencast).state = 1 :=
  have h := set_swap_interval_refused_on_screencast sample_screencast 0 rfl
  ⟨rfl, h.2.1, h.2.2.2.2.trans rfl⟩

/-- C23 on the code: `set_scale` has no test of the mode.  On the sample
screencast stream, which is what the constructor builds in screencast mode
from the sample answer, `set_scale(2)` returns the scale handle, armed, after sending
a `configure_buffer_stream` request with scale 2 for stream 5, where the
sibling `set_swap_interval(2)` throws a logic error. -/
theorem set_scale_configures_screencast :
    BufferStream.create 3 BufferStreamMode.Consumer sample_answer sample_size 3 none
      = ([], Except.ok sample_screencast) ∧
    sample_screencast.mode = BufferStreamMode.Consumer ∧
    (BufferStream.set_scale 2 sample_screencast).result
      = Completion.returned HandleName.scale ∧
    configurations (BufferStream.set_scale 2 sample_screencast).effects
      = [{ id := 5, scale := some 2, swapinterval := none }] ∧
    (BufferStream.set_swap_interval 2 sample_screencast).result
      = Completion.thrown
          (Exception.logic_error "Attempt to set swap interval on screencast is invalid") := by
  refine ⟨rfl, rfl, rfl, rfl, rfl⟩

/-- C29: for every stream state and every buffer that carries an error marker
together with a width and a height, `buffer_available(buffer)` throws only
after the cached buffer size has been overwritten: after the failed call
`get_parameters()` reports the width and height of that buffer, so its answer
differs from the one before whenever the dimensions differ. -/
theorem buffer_available_failure_overwrites_size (st : BufferStream) (buffer : Buffer)
    (marker : String) (w h : Int) (herr : buffer.error = some marker)
    (hw : buffer.opt_width = some w) (hh : buffer.opt_height = some h) :
    (BufferStream.buffer_available buffer st).result
      = Completion.thrown
          (Exception.runtime_error ("BufferStream received buffer with error:" ++ marker)) ∧
    (BufferStream.buffer_available buffer st).state.cached_buffer_size
      = { width := w, height := h } ∧
    (BufferStream.get_parameters (BufferStream.buffer_available buffer st).state).width = w ∧
    (BufferStream.get_parameters (BufferStream.buffer_available buffer st).state).height = h ∧
    (st.cached_buffer_size ≠ { width := w, height := h } →
      BufferStream.get_parameters (BufferStream.buffer_available buffer st).state
        ≠ BufferStream.get_parameters st) := by
  have hcall : BufferStream.buffer_available buffer st = _ :=
    process_buffer_error buffer st marker herr
  have hdims : (buffer.has_width && buffer.has_height) = true := by
    simp [Buffer.has_width, Buffer.has_height, hw, hh]
  have hsize : (BufferStream.buffer_available buffer st).state.cached_buffer_size
      = { width := w, height := h } := by
    rw [hcall]
    simp [hdims, Buffer.width, Buffer.height, hw, hh]
  refine ⟨by rw [hcall], hsize, ?_, ?_, ?_⟩
  · simp [BufferStream.get_parameters, hsize]
  · simp [BufferStream.get_parameters, hsize]
  · intro hne heq
    apply hne
    have hwidth := congrArg MirSurfaceParameters.width heq
    have hheight := congrArg MirSurfaceParameters.height heq
    simp only [BufferStream.get_parameters, hsize] at hwidth hheight
    cases hc : st.cached_buffer_size with
    | mk cw ch =>
      rw [hc] at hwidth hheight
      simp only at hwidth hheight
      rw [← hwidth, ← hheight]

/-- C29 at a concrete state: the sample stream, whose size is 4x4, reports 8x6
once the 8x6 sample error buffer has been refused. -/
theorem buffer_available_failure_overwrites_size_witness :
    sample_error_buffer.error = some "lost" ∧ sample_error_buffer.opt_width = some 8 ∧
    sample_error_buffer.opt_height = some 6 ∧
    (BufferStream.get_parameters sample_stream).width = 4 ∧
    (BufferStream.get_parameters
      (BufferStream.buffer_available sample_error_buffer sample_stream).state).width = 8 ∧
    (BufferStream.get_parameters
      (BufferStream.buffer_available sample_error_buffer sample_stream).state).height = 6 :=
  have h := buffer_available_failure_overwrites_size sample_stream sample_error_buffer
    "lost" 8 6 rfl rfl rfl
  ⟨rfl, rfl, rfl, rfl, h.2.2.1, h.2.2.2.1⟩

/-! ## The Ping-Pong strategy: arming, locking, repeated connection loss -/

/-- In a consistent state a submit made while no callback is stored does not
find the next-buffer handle expecting. -/
theorem orderly_call_does_not_double_arm (c : Call) (s : ExchangeSemantics)
    (hcons : Consistent s) (h : c.is_submit = true → s.on_incoming_buffer = none) :
    c.arms_armed_handle s = false := by
  cases hsub : c.is_submit with
  | false => simp [Call.arms_armed_handle, hsub]
  | true =>
    have hnone := h hsub
    have hidle : s.next_buffer_wait_handle.is_pending = false := by
      rw [hcons.2, hnone]
      rfl
    simp [Call.arms_armed_handle, hidle]

theorem orderly_run_does_not_double_arm (calls : List Call) (s : ExchangeSemantics)
    (hcons : Consistent s) (h : one_request_at_a_time calls s = true) :
    double_arms calls s = false := by
  induction calls generalizing s with
  | nil => rfl
  | cons c rest ih =>
    simp only [one_request_at_a_time, Bool.and_eq_true, Bool.or_eq_true,
      Bool.not_eq_true_eq_eq_false] at h
    have hstep := orderly_call_does_not_double_arm c s hcons (by
      intro hsub
      rcases h.1 with hno | hnone
      · simp [hsub] at hno
      · simpa using hnone)
    have hrest := ih (c.perform s).2 (perform_consistent c s hcons) h.2
    simp [double_arms, hstep, hrest]

/-- C27, as stated, fails: on a fresh strategy the second of two submits in a
row calls `expect_result()` on the next-buffer wait handle that the first one
armed and nothing has resolved. -/
theorem second_submit_arms_armed_handle :
    (run [sample_submit 7] sample_fresh).next_buffer_wait_handle.is_pending = true ∧
    Effect.expect_result HandleName.next_buffer
      ∈ ((sample_submit 8).perform (run [sample_submit 7] sample_fresh)).1 ∧
    double_arms [sample_submit 7, sample_submit 8] sample_fresh = true := by
  refine ⟨rfl, ?_, rfl⟩
  decide

/-- C27, amended: in every sequence of calls on a fresh strategy in which no
submit is made while a callback is still stored, no submit calls
`expect_result()` on the next-buffer wait handle while that handle is still
expecting a result. -/
theorem orderly_submits_never_double_arm (max_buffers : Nat) (first_buffer : Buffer)
    (first_size : Size) (first_pf : MirPixelFormat) (calls : List Call)
    (hone : one_request_at_a_time calls
      (create max_buffers first_buffer first_size first_pf) = true) :
    double_arms calls (create max_buffers first_buffer first_size first_pf) = false :=
  orderly_run_does_not_double_arm calls _
    (create_consistent max_buffers first_buffer first_size first_pf) hone

/-- C27, amended, at a concrete history: submit, deposit, submit, connection
loss, submit on a fresh strategy never arms an expecting handle. -/
theorem orderly_submits_never_double_arm_witness :
    one_request_at_a_time [sample_submit 7, sample_deposit 1, sample_submit 8,
        Call.lost_connection, sample_submit 9] (create 3 (sample_buffer 0) sample_size 0)
      = true ∧
    double_arms [sample_submit 7, sample_deposit 1, sample_submit 8, Call.lost_connection,
        sample_submit 9] (create 3 (sample_buffer 0) sample_size 0) = false :=
  ⟨rfl, orderly_submits_never_double_arm 3 (sample_buffer 0) sample_size 0
    [sample_submit 7, sample_deposit 1, sample_submit 8, Call.lost_connection,
      sample_submit 9] rfl⟩

/-- C30: `lost_connection()` twice in a row leaves the strategy, whatever its
state, as one call does; the second call has no effect at all, so it invokes
no callback and does not resolve the wait handle again. -/
theorem lost_connection_twice (s : ExchangeSemantics) :
    (lost_connection (lost_connection s).state).state = (lost_connection s).state ∧
    (lost_connection (lost_connection s).state).effects = [] ∧
    invocations (lost_connection (lost_connection s).state).effects = [] ∧
    Effect.result_received HandleName.next_buffer
      ∉ (lost_connection (lost_connection s).state).effects := by
  cases hcb : s.on_incoming_buffer <;> cases hh : s.next_buffer_wait_handle <;>
    simp [lost_connection, hcb, hh, invocations, MirWaitHandle.is_pending,
      MirWaitHandle.result_received]

/-- The steps of the three methods are their effects with the mutex added. -/
theorem steps_are_effects (s : ExchangeSemantics) (buffer : Buffer) (size : Size)
    (pf : MirPixelFormat) (done : Callback) (sz : Size) (pf2 : MirPixelFormat)
    (stream_id : Int) :
    acts (deposit_steps buffer size pf s) = (deposit buffer size pf s).effects ∧
    acts (submit_steps done sz pf2 stream_id s) = (submit done sz pf2 stream_id s).effects ∧
    acts (lost_connection_steps s) = (lost_connection s).effects := by
  refine ⟨?_, ?_, ?_⟩
  · cases hcb : s.on_incoming_buffer <;> simp [deposit_steps, deposit, acts, hcb]
  · cases hl : s.server_connection_lost <;> cases hq : s.incoming_buffers <;>
      simp [submit_steps, submit, submit_request, submit_complete, acts, hl, hq]
  · cases hcb : s.on_incoming_buffer <;> cases hh : s.next_buffer_wait_handle <;>
      simp [lost_connection_steps, lost_connection, acts, hcb, hh, MirWaitHandle.is_pending]

/-- C26, as stated, fails: with callback 7 pending on a fresh strategy,
`deposit` invokes it as its only callback while the mutex taken at the start
of the method is still held. -/
theorem deposit_invokes_callback_under_lock :
    invocations (acts (deposit_steps (sample_buffer 1) sample_size 0
      (run [sample_submit 7] sample_fresh))) = [{ token := 7 }] ∧
    held_at Effect.is_callback false (deposit_steps (sample_buffer 1) sample_size 0
      (run [sample_submit 7] sample_fresh)) = [true] := by
  refine ⟨rfl, rfl⟩

/-- C26, amended: in every execution of the Ping-Pong strategy's `deposit`,
`submit` and `lost_connection` the strategy mutex is held at the moment a
completion callback runs; the one effect that happens with the mutex released
is the `submit_buffer` call of `submit`. -/
theorem callbacks_run_under_lock (s : ExchangeSemantics) (buffer : Buffer) (size : Size)
    (pf : MirPixelFormat) (done : Callback) (sz : Size) (pf2 : MirPixelFormat)
    (stream_id : Int) :
    held_at Effect.is_callback false (deposit_steps buffer size pf s)
      = (invocations (deposit buffer size pf s).effects).map (fun _ => true) ∧
    held_at Effect.is_callback false (submit_steps done sz pf2 stream_id s)
      = (invocations (submit done sz pf2 stream_id s).effects).map (fun _ => true) ∧
    held_at Effect.is_callback false (lost_connection_steps s)
      = (invocations (lost_connection s).effects).map (fun _ => true) ∧
    held_at Effect.is_submit_buffer false (submit_steps done sz pf2 stream_id s)
      = (requests (submit done sz pf2 stream_id s).effects).map (fun _ => false) ∧
    held_at (fun e => !e.is_submit_buffer) false (submit_steps done sz pf2 stream_id s)
      = ((submit done sz pf2 stream_id s).effects.filter
          (fun e => !e.is_submit_buffer)).map (fun _ => true) := by
  refine ⟨?_, ?_, ?_, ?_, ?_⟩
  · cases hcb : s.on_incoming_buffer <;>
      simp [deposit_steps, deposit, held_at, invocations, Effect.is_callback, hcb]
  · cases hl : s.server_connection_lost <;> cases hq : s.incoming_buffers <;>
      simp [submit_steps, submit, submit_request, submit_complete, held_at, invocations,
        Effect.is_callback, hl, hq]
  · cases hcb : s.on_incoming_buffer <;> cases hh : s.next_buffer_wait_handle <;>
      simp [lost_connection_steps, lost_connection, held_at, invocations, Effect.is_callback,
        hcb, hh, MirWaitHandle.is_pending]
  · cases hl : s.server_connection_lost <;> cases hq : s.incoming_buffers <;>
      simp [submit_steps, submit, submit_request, submit_complete, held_at, requests,
        Effect.is_submit_buffer, hl, hq]
  · cases hl : s.server_connection_lost <;> cases hq : s.incoming_buffers <;>
      simp [submit_steps, submit, submit_request, submit_complete, held_at,
        Effect.is_submit_buffer, hl, hq]

/-! ## The FD channel -/

/-- The loop stores the descriptors themselves, in list order. -/
theorem store_fds_values (fds : List Int) (i : Nat) :
    (store_fds fds i).map Prod.snd = fds := by
  induction fds generalizing i with
  | nil => rfl
  | cons fd rest ih => simp [store_fds, ih]

/-- Every slot the loop writes is one of the `int` slots `i`, `i + 1`, ... that
follow `CMSG_DATA`. -/
theorem store_fds_slots (fds : List Int) (i : Nat) (slot : Nat × Int)
    (h : slot ∈ store_fds fds i) :
    ∃ k, i ≤ k ∧ k < i + fds.length ∧ slot.1 = CMSG_DATA_offset + k * sizeof_int := by
  induction fds generalizing i with
  | nil => simp [store_fds] at h
  | cons fd rest ih =>
    simp only [store_fds, List.mem_cons] at h
    rcases h with h | h
    · exact ⟨i, Nat.le_refl i, by simp, by rw [h]⟩
    · obtain ⟨k, hk1, hk2, hk3⟩ := ih (i + 1) h
      exact ⟨k, by omega, by simp only [List.length_cons]; omega, hk3⟩

/-- The sizes `send_fds` computes for a descriptor count whose bytes fit in a
`std::vector`: nothing wraps around. -/
theorem control_sizes (count : Nat) (hfit : count * sizeof_int < 2 ^ 63) :
    fds_bytes count = count * 4 ∧
    CMSG_SPACE (fds_bytes count) = (count * 4 + 7) / 8 * 8 + 16 ∧
    CMSG_LEN (fds_bytes count) = 16 + count * 4 ∧
    builtin_cmsg_space = 40 := by
  simp only [sizeof_int] at hfit
  have hbytes : fds_bytes count = count * 4 := by
    simp only [fds_bytes, sizeof_int, size_t_range]
    omega
  refine ⟨hbytes, ?_, ?_, ?_⟩
  · rw [hbytes]
    simp only [CMSG_SPACE, CMSG_ALIGN, sizeof_size_t, sizeof_cmsghdr, size_t_range]
    omega
  · rw [hbytes]
    simp only [CMSG_LEN, CMSG_ALIGN, sizeof_size_t, sizeof_cmsghdr, size_t_range]
    omega
  · simp only [builtin_cmsg_space, CMSG_SPACE, CMSG_ALIGN, sizeof_int, sizeof_size_t,
      sizeof_cmsghdr, size_t_range]
    omega

/-- C25, as stated, fails: when `sendmsg` reports 0 bytes sent, fewer than the
one payload byte, `send_fds` returns normally and reports nothing. -/
theorem send_fds_ignores_short_send :
    (0 : Int) < 1 ∧ (send_fds 0 "" [3]).2 = Except.ok () := by
  refine ⟨by decide, rfl⟩

/-- C25, amended: for every non-empty descriptor list `send_fds` throws a
runtime error, "Failed to send fds: " with the system's reason, exactly when
`sendmsg` fails, that is returns a negative value, and returns normally
otherwise, a count of 0 bytes included; either way it has called `sendmsg`
once and does not try again. -/
theorem send_fds_reports_failure (sent : Int) (reason : String) (fd : Int) (rest : List Int) :
    (send_fds sent reason (fd :: rest)).2
      = (if sent < 0 then
          Except.error (Exception.runtime_error ("Failed to send fds: " ++ reason))
        else Except.ok ()) ∧
    (send_fds sent reason (fd :: rest)).1.length = 1 := by
  constructor <;> simp [send_fds]

/-- C28: for every descriptor list of M ≥ 1 descriptors whose bytes fit in a
`std::vector`, the control buffer `send_fds` allocates has exactly
`CMSG_SPACE(M * sizeof(int))` bytes, which is also `msg_controllen`; the
control message length `CMSG_LEN(M * sizeof(int))` does not exceed it; each of
the M descriptor slots written from `CMSG_DATA` on lies inside the buffer; and
for M ≤ 5 the buffer fits the built-in capacity `CMSG_SPACE(5 * sizeof(int))`,
so nothing is allocated on the heap. -/
theorem send_fds_control_buffer_bounds (sent : Int) (reason : String) (fds : List Int)
    (hcount : 1 ≤ fds.length) (hfit : fds.length * sizeof_int < 2 ^ 63) :
    ∃ header, (send_fds sent reason fds).1 = [header] ∧
      header.control.size = CMSG_SPACE (fds.length * sizeof_int) ∧
      header.msg_controllen = header.control.size ∧
      header.message.cmsg_len = CMSG_LEN (fds.length * sizeof_int) ∧
      header.message.cmsg_len ≤ header.control.size ∧
      header.message.data.length = fds.length ∧
      (∀ slot ∈ header.message.data,
        CMSG_DATA_offset ≤ slot.1 ∧ slot.1 + sizeof_int ≤ header.message.cmsg_len ∧
        slot.1 + sizeof_int ≤ header.control.size) ∧
      header.control.builtin = CMSG_SPACE (5 * sizeof_int) ∧
      (fds.length ≤ 5 →
        header.control.size ≤ header.control.builtin ∧ header.control.on_heap = false) := by
  obtain ⟨hbytes, hspace, hlen, hbuiltin⟩ := control_sizes fds.length hfit
  have hbytes2 : fds.length * sizeof_int = fds_bytes fds.length := by
    rw [hbytes]
    rfl
  have hpos : fds.length > 0 := hcount
  refine ⟨fds_message fds, by simp only [send_fds, hpos, ↓reduceIte],
    ?_, rfl, ?_, ?_, ?_, ?_, rfl, ?_⟩
  · show CMSG_SPACE (fds_bytes fds.length) = CMSG_SPACE (fds.length * sizeof_int)
    rw [hbytes2]
  · show CMSG_LEN (fds_bytes fds.length) = CMSG_LEN (fds.length * sizeof_int)
    rw [hbytes2]
  · show CMSG_LEN (fds_bytes fds.length) ≤ CMSG_SPACE (fds_bytes fds.length)
    rw [hspace, hlen]
    omega
  · show (store_fds fds 0).length = fds.length
    have := congrArg List.length (store_fds_values fds 0)
    simpa using this
  · intro slot hslot
    obtain ⟨k, _, hk, hslot2⟩ := store_fds_slots fds 0 slot hslot
    show CMSG_DATA_offset ≤ slot.1 ∧ slot.1 + sizeof_int ≤ CMSG_LEN (fds_bytes fds.length) ∧
      slot.1 + sizeof_int ≤ CMSG_SPACE (fds_bytes fds.length)
    rw [hspace, hlen]
    simp only [CMSG_DATA_offset, sizeof_cmsghdr, sizeof_int] at hslot2 ⊢
    omega
  · intro hsmall
    show CMSG_SPACE (fds_bytes fds.length) ≤ builtin_cmsg_space ∧
      decide (builtin_cmsg_space < CMSG_SPACE (fds_bytes fds.length)) = false
    rw [hspace, hbuiltin]
    constructor
    · omega
    · simp only [decide_eq_false_iff_not, Nat.not_lt]
      omega

/-- C28 at a concrete list: for three descriptors the buffer has 32 bytes, the
message length is 28 and the built-in 40 bytes are enough. -/
theorem send_fds_control_buffer_bounds_witness :
    1 ≤ [3, 4, 5].length ∧ [3, 4, 5].length * sizeof_int < 2 ^ 63 ∧
    ∃ header, (send_fds 1 "" [3, 4, 5]).1 = [header] ∧
      header.control.size = CMSG_SPACE ([3, 4, 5].length * sizeof_int) ∧
      header.message.cmsg_len ≤ header.control.size :=
  have h := send_fds_control_buffer_bounds 1 "" [3, 4, 5] (by decide) (by decide)
  ⟨by decide, by decide, h.choose, h.choose_spec.1, h.choose_spec.2.1,
    h.choose_spec.2.2.2.2.1⟩

end client
end mir
